import Mathlib

/-!
# request.c : receive buffer, line framing, start-line and query parsing, multipart upload

A shallow embedding of `src/request.c`.

Conventions of the embedding

* A byte is a natural number (`'\r'` is 13, `'\n'` is 10, `'\0'` is 0).
* `int` values are `Int`; loop counters that only count upwards from 0 are `Nat`.
* The header `request.h` is not part of the sources.  Its constants `MAXLINE` and
  `MAX_QUERY_PARAMS` are parameters of the functions that use them.
* `client->buf` is the array `char buf[MAXLINE]` embedded in the struct; it is the
  list `ClientState.buf`, of length `MAXLINE` in a well-formed state.
* A store outside an array, a dereference of `NULL` and a read of a byte that was
  never written are faults: the functions that can do one of these return
  `Except Fault _`.
* Memory that was allocated but not written yet is a list of cells `Option Nat`,
  `none` standing for a byte that was never written.
* The one read that the code makes outside `client->buf` (the source of the
  `memmove` in `remove_buffered_line`) takes its bytes from a function `mem`, which
  maps an offset from the start of the buffer to the byte that the surrounding
  memory holds there.
* `log_request` assigns nothing; it is embedded as `log_request`, which gives the
  bytes printed to `stderr`.  `parse_req_start_line` is the C function without its
  call of `log_request`: its stores and the value at the `return` behind the call.
  `parse_req_start_line_logged` is the C function with the call.
-/

namespace Request

/-! ## Data model -/

/-- Ways in which a call can leave defined behaviour. -/
inductive Fault where
  /-- a store into `client->buf` at an index outside `[0, MAXLINE)` -/
  | bufferOverflow
  /-- a store into `req->params` at the given slot, which is outside the array -/
  | paramsOverflow (slot : Nat)
  /-- a `NULL` pointer handed to `strlen`, `strcmp` or `strtok` -/
  | nullDeref
  /-- a read of a byte that was never written -/
  | uninitRead
  /-- an access outside a local array or outside a string -/
  | outOfBounds
  /-- a store outside a block returned by `malloc` or outside a local array -/
  | blockOverflow
  deriving DecidableEq, Repr

deriving instance DecidableEq for Except

/-- A block of allocated memory: `none` is a byte that was never written. -/
abbrev Block := List (Option Nat)

/-- Struct `Fdata`: a name/value pair.  A field is `none` until it is assigned. -/
structure Fdata where
  name : Option Block
  value : Option Block
  deriving DecidableEq, Repr

/-- Struct `ReqData`.  `method` and `path` are `none` until they are assigned;
`params` is the array `Fdata params[MAX_QUERY_PARAMS]`. -/
structure ReqData where
  method : Option Block
  path : Option Block
  params : List Fdata
  deriving DecidableEq, Repr

/-- Struct `ClientState`.  `reqData = none` is the `NULL` pointer. -/
structure ClientState where
  sock : Int
  buf : List Nat
  num_bytes : Int
  reqData : Option ReqData
  deriving DecidableEq, Repr

/-- Carriage return. -/
def CR : Nat := 13

/-- Line feed. -/
def LF : Nat := 10

/-- The data model's invariant on a client: the buffer is the `MAXLINE`-byte array
and `0 ≤ num_bytes ≤ MAXLINE - 1`. -/
def ClientState.WellFormed (MAXLINE : Nat) (c : ClientState) : Prop :=
  c.buf.length = MAXLINE ∧ 0 ≤ c.num_bytes ∧ c.num_bytes ≤ (MAXLINE : Int) - 1

instance (MAXLINE : Nat) (c : ClientState) : Decidable (c.WellFormed MAXLINE) := by
  unfold ClientState.WellFormed; infer_instance

/-! ## find_network_newline -/

/-- The `for` loop of `find_network_newline`, at counter `i`.  The loop runs at most
`inbuf` times, which is the fuel the caller passes.  A position outside the list
matches neither `'\r'` nor `'\n'`. -/
def find_network_newline_loop (buf : List Nat) (inbuf : Int) : Nat → Nat → Int
  | 0, _ => -1
  | fuel + 1, i =>
    if (i : Int) < inbuf - 1 then
      if buf[i]? = some CR ∧ buf[i + 1]? = some LF then (i : Int) + 2
      else find_network_newline_loop buf inbuf fuel (i + 1)
    else -1

/-- `int find_network_newline(const char *buf, int inbuf)`. -/
def find_network_newline (buf : List Nat) (inbuf : Int) : Int :=
  find_network_newline_loop buf inbuf inbuf.toNat 0

/-! ## remove_buffered_line -/

/-- The byte at offset `k` from the start of `client->buf`: inside the array it is
the buffer's byte, outside the array it is what the surrounding memory `mem`
holds there. -/
def peek (buf : List Nat) (mem : Nat → Nat) (k : Nat) : Nat :=
  match buf[k]? with
  | some b => b
  | none => mem k

/-- `memmove(&buf, src, n)` with `src` at byte offset `off` from the start of the
buffer: the `n` source bytes are read first, then stored at `buf[0..n)`. -/
def memmove_to_front (buf : List Nat) (mem : Nat → Nat) (off n : Nat) :
    Except Fault (List Nat) :=
  if n ≤ buf.length then
    .ok ((List.range n).map (fun j => peek buf mem (off + j)) ++ buf.drop n)
  else .error .bufferOverflow

/-- `void remove_buffered_line(ClientState *client)`.

The source operand of the `memmove` is `&(client->buf) + where`.  `&(client->buf)`
has type `char (*)[MAXLINE]`, so the addition advances by `where` whole arrays:
the source is at byte offset `where * MAXLINE`, not `where`. -/
def remove_buffered_line (MAXLINE : Nat) (mem : Nat → Nat) (client : ClientState) :
    Except Fault ClientState :=
  let wh := find_network_newline client.buf client.num_bytes
  if wh > 0 then
    let num_bytes := client.num_bytes - wh
    match memmove_to_front client.buf mem (wh.toNat * MAXLINE) num_bytes.toNat with
    | .ok buf => .ok { client with num_bytes := num_bytes, buf := buf }
    | .error f => .error f
  else .ok client

/-! ## read_from_client -/

/-- What the socket has for one `read` call: the bytes that are pending (none when
the peer has closed), or a failure. -/
inductive ReadResult where
  | data (pending : List Nat)
  | failed
  deriving DecidableEq, Repr

/-- Conversion of an `int` to `size_t` (64 bits): a negative value wraps around. -/
def size_t_of_int (x : Int) : Nat := if x < 0 then (x + 2 ^ 64).toNat else x.toNat

/-- `read(fd, p, count)`: the return value and the bytes stored at `p`.  At most
`count` of the pending bytes are delivered. -/
def sys_read (r : ReadResult) (count : Nat) : Int × List Nat :=
  match r with
  | .data pending => (((pending.take count).length : Nat), pending.take count)
  | .failed => (-1, [])

/-- Store the bytes `d` at `buf[i ..]`. -/
def store_bytes (buf : List Nat) (i : Int) (d : List Nat) : Except Fault (List Nat) :=
  if d = [] then .ok buf
  else if 0 ≤ i ∧ i + d.length ≤ buf.length then
    .ok (buf.take i.toNat ++ d ++ buf.drop (i.toNat + d.length))
  else .error .bufferOverflow

/-- The assignment `buf[i] = v`. -/
def store_byte (buf : List Nat) (i : Int) (v : Nat) : Except Fault (List Nat) :=
  if 0 ≤ i ∧ i < buf.length then .ok (buf.set i.toNat v)
  else .error .bufferOverflow

/-- `int read_from_client(ClientState *client)`; `r` is what the socket has. -/
def read_from_client (MAXLINE : Nat) (r : ReadResult) (client : ClientState) :
    Except Fault (Int × ClientState) :=
  let room : Int := (MAXLINE : Int) - client.num_bytes - 1
  let got := sys_read r (size_t_of_int room)
  let numread := got.1
  match store_bytes client.buf client.num_bytes got.2 with
  | .error f => .error f
  | .ok buf1 =>
    if numread > 0 then
      let num_bytes := client.num_bytes + numread
      match store_byte buf1 num_bytes 0 with
      | .error f => .error f
      | .ok buf2 => .ok (numread, { client with buf := buf2, num_bytes := num_bytes })
    else .ok (-1, { client with buf := buf1 })

/-- The bytes of an ASCII string. -/
def bytes (s : String) : List Nat := s.toList.map Char.toNat

/-- A client whose buffer holds `content` followed by zero bytes up to `MAXLINE`. -/
def client_holding (MAXLINE : Nat) (content : List Nat) : ClientState :=
  { sock := 3, buf := content ++ List.replicate (MAXLINE - content.length) 0,
    num_bytes := content.length, reqData := none }

/-- A CR LF pair starts at index `i` of `buf`. -/
def CRLFAt (buf : List Nat) (i : Nat) : Prop :=
  buf[i]? = some CR ∧ buf[i + 1]? = some LF

instance (buf : List Nat) (i : Nat) : Decidable (CRLFAt buf i) := by
  unfold CRLFAt; infer_instance

/-! ## parse_query -/

/-- `strlen(str)` for a string argument: `str` lists the bytes at the pointer, and
the string ends at the first NUL, or where the list ends. -/
def strlen (str : List Nat) : Nat := (str.takeWhile (fun b => b ≠ 0)).length

/-- The three statements `p = malloc(len + 1); memcpy(p, &(str[i - len]), len);
p[len] = '\0';` of `parse_query`: the new block. -/
def copy_run (str : List Nat) (i len : Nat) : Except Fault Block :=
  if len ≤ i then .ok (((str.drop (i - len)).take len).map some ++ [some 0])
  else .error .outOfBounds

/-- The assignment `(req->params)[num].name = p`. -/
def set_name (req : ReqData) (num : Nat) (p : Block) : Except Fault ReqData :=
  match req.params[num]? with
  | some f => .ok { req with params := req.params.set num { f with name := some p } }
  | none => .error (.paramsOverflow num)

/-- The assignment `(req->params)[num].value = p`. -/
def set_value (req : ReqData) (num : Nat) (p : Block) : Except Fault ReqData :=
  match req.params[num]? with
  | some f => .ok { req with params := req.params.set num { f with value := some p } }
  | none => .error (.paramsOverflow num)

/-- The `for` loop of `parse_query` at counter `i`, with the locals `len` and `num`.
It returns the locals and the request when the loop is left, through its condition
or through `break` (which leaves `i` as it is).  The loop runs at most
`strlen(str)` times, which is the fuel the caller passes. -/
def parse_query_loop (MAX_QUERY_PARAMS : Nat) (str : List Nat) :
    Nat → Nat → Nat → Nat → ReqData → Except Fault (Nat × Nat × Nat × ReqData)
  | 0, i, len, num, req => .ok (i, len, num, req)
  | fuel + 1, i, len, num, req =>
    if i < strlen str then
      if str[i]? = some 61 then
        match copy_run str i len with
        | .error f => .error f
        | .ok p =>
          match set_name req num p with
          | .error f => .error f
          | .ok req1 =>
            if num = MAX_QUERY_PARAMS then .ok (i, 0, num, req1)
            else parse_query_loop MAX_QUERY_PARAMS str fuel (i + 1) 0 num req1
      else if str[i]? = some 38 then
        match copy_run str i len with
        | .error f => .error f
        | .ok p =>
          match set_value req num p with
          | .error f => .error f
          | .ok req1 =>
            if num + 1 = MAX_QUERY_PARAMS then .ok (i, 0, num + 1, req1)
            else parse_query_loop MAX_QUERY_PARAMS str fuel (i + 1) 0 (num + 1) req1
      else
        if num = MAX_QUERY_PARAMS then .ok (i, len + 1, num, req)
        else parse_query_loop MAX_QUERY_PARAMS str fuel (i + 1) (len + 1) num req
    else .ok (i, len, num, req)

/-- The three statements behind the loop of `parse_query`: the pending run becomes
the value of slot `num`. -/
def parse_query_finish (str : List Nat) :
    Except Fault (Nat × Nat × Nat × ReqData) → Except Fault ReqData
  | .error f => .error f
  | .ok (i, len, num, req1) =>
    match copy_run str i len with
    | .error f => .error f
    | .ok p => set_value req1 num p

/-- `void parse_query(ReqData *req, const char *str)`: the request after the call. -/
def parse_query (MAX_QUERY_PARAMS : Nat) (req : ReqData) (str : List Nat) :
    Except Fault ReqData :=
  parse_query_finish str (parse_query_loop MAX_QUERY_PARAMS str (strlen str) 0 0 0 req)

/-- The request right after `malloc(sizeof(ReqData))`: no field is assigned. -/
def fresh_req (MAX_QUERY_PARAMS : Nat) : ReqData :=
  { method := none, path := none,
    params := List.replicate MAX_QUERY_PARAMS { name := none, value := none } }

/-- The block holding the C string `s`: its bytes and the terminating NUL. -/
def cstring (s : List Nat) : Block := s.map some ++ [some 0]

/-- The slot that holds the pair `name`, `value` as C strings. -/
def pair_slot (nv : List Nat × List Nat) : Fdata :=
  { name := some (cstring nv.1), value := some (cstring nv.2) }

/-- The query string `n_1=v_1&...&n_k=v_k` of a list of pairs. -/
def encode_query : List (List Nat × List Nat) → List Nat
  | [] => []
  | [nv] => nv.1 ++ 61 :: nv.2
  | nv :: rest => nv.1 ++ 61 :: nv.2 ++ 38 :: encode_query rest

/-- The bytes of a name or value: none of `'='`, `'&'`, NUL. -/
def Plain (s : List Nat) : Prop := ∀ b ∈ s, b ≠ 61 ∧ b ≠ 38 ∧ b ≠ 0

instance (s : List Nat) : Decidable (Plain s) := by
  unfold Plain; infer_instance

/-! ## String functions of the C library, on blocks

A pointer into a block `m` is an index `p`; the bytes at the pointer are
`m.drop p`. -/

/-- The byte `m[p]`. -/
def load (m : Block) (p : Nat) : Except Fault Nat :=
  match m[p]? with
  | none => .error .outOfBounds
  | some none => .error .uninitRead
  | some (some b) => .ok b

/-- `strspn(s, delim)`: the number of leading bytes of `s` that are in `delim`. -/
def strspn (delim : List Nat) : Block → Except Fault Nat
  | [] => .error .outOfBounds
  | none :: _ => .error .uninitRead
  | some b :: rest =>
    if b ≠ 0 ∧ b ∈ delim then
      match strspn delim rest with
      | .ok k => .ok (k + 1)
      | .error f => .error f
    else .ok 0

/-- `strcspn(s, delim)`: the number of leading bytes of `s` that are neither in
`delim` nor the terminating NUL. -/
def strcspn (delim : List Nat) : Block → Except Fault Nat
  | [] => .error .outOfBounds
  | none :: _ => .error .uninitRead
  | some b :: rest =>
    if b = 0 ∨ b ∈ delim then .ok 0
    else
      match strcspn delim rest with
      | .ok k => .ok (k + 1)
      | .error f => .error f

/-- The C string at a pointer: its bytes up to the terminating NUL.  `strlen` of the
pointer is the length of this list. -/
def string_at (m : Block) (s : Option Nat) : Except Fault (List Nat) :=
  match s with
  | none => .error .nullDeref
  | some p =>
    match strcspn [] (m.drop p) with
    | .ok n => .ok (((m.drop p).take n).filterMap id)
    | .error f => .error f

/-- `strcmp(lit, s) == 0` for a string literal `lit` (without its NUL) and the
bytes `s` at a pointer. -/
def strcmp_eq : List Nat → Block → Except Fault Bool
  | _, [] => .error .outOfBounds
  | _, none :: _ => .error .uninitRead
  | [], some b :: _ => .ok (b = 0)
  | a :: lit, some b :: rest => if a = b then strcmp_eq lit rest else .ok false

/-- `strtok(s, delim)` on the block `m`, with `save` the position kept between
calls: the token returned (`none` is `NULL`), the block after the call, and the
position kept for the next call. -/
def strtok (m : Block) (save : Option Nat) (s : Option Nat) (delim : List Nat) :
    Except Fault (Option Nat × Block × Option Nat) :=
  match (match s with | some p => some p | none => save) with
  | none => .error .nullDeref
  | some p0 =>
    match strspn delim (m.drop p0) with
    | .error f => .error f
    | .ok k =>
      match load m (p0 + k) with
      | .error f => .error f
      | .ok b =>
        if b = 0 then .ok (none, m, some (p0 + k))
        else
          match strcspn delim (m.drop (p0 + k)) with
          | .error f => .error f
          | .ok n =>
            match load m (p0 + k + n) with
            | .error f => .error f
            | .ok e =>
              if e = 0 then .ok (some (p0 + k), m, some (p0 + k + n))
              else .ok (some (p0 + k), m.set (p0 + k + n) (some 0), some (p0 + k + n + 1))

/-! ## parse_req_start_line -/

/-- Modelled from the spec: the macro `GET` of the absent `request.h`, the method
token "GET". -/
def GET : List Nat := bytes "GET"

/-- Modelled from the spec: the macro `POST` of the absent `request.h`, the method
token "POST". -/
def POST : List Nat := bytes "POST"

/-- The two statements `p = malloc(strlen(s) + 1); memcpy(p, s, strlen(s));` for the
method and the path: the last byte of the block is never written. -/
def copy_unterminated (s : List Nat) : Block := s.map some ++ [none]

/-- The statements `char startline_str[MAXLINE]; memcpy(startline_str, client->buf,
where);`: the local array, whose bytes behind the line are never written. -/
def copy_line (MAXLINE : Nat) (buf : List Nat) (wh : Nat) : Except Fault Block :=
  if wh ≤ MAXLINE ∧ wh ≤ buf.length then
    .ok ((buf.take wh).map some ++ List.replicate (MAXLINE - wh) none)
  else .error .outOfBounds

/-- The method branch of `parse_req_start_line`: `reqData->method` is assigned only
when the token is `GET` or `POST`. -/
def assign_method (req : ReqData) (m : Block) (token : Option Nat) : Except Fault ReqData :=
  match token with
  | none => .error .nullDeref
  | some p =>
    match strcmp_eq GET (m.drop p) with
    | .error f => .error f
    | .ok true =>
      match string_at m token with
      | .error f => .error f
      | .ok s => .ok { req with method := some (copy_unterminated s) }
    | .ok false =>
      match strcmp_eq POST (m.drop p) with
      | .error f => .error f
      | .ok true =>
        match string_at m token with
        | .error f => .error f
        | .ok s => .ok { req with method := some (copy_unterminated s) }
      | .ok false => .ok req

/-- The part of `parse_req_start_line` that works on the copy `startline_str` of the
framed line, from the first `strtok` to the call of `parse_query`: the request
data it builds in the block returned by `malloc(sizeof(ReqData))`. -/
def parse_line (MAX_QUERY_PARAMS : Nat) (startline_str : Block) : Except Fault ReqData :=
  match strtok startline_str none (some 0) [32] with
  | .error f => .error f
  | .ok (token, m1, save1) =>
    match assign_method (fresh_req MAX_QUERY_PARAMS) m1 token with
    | .error f => .error f
    | .ok req1 =>
      match strtok m1 save1 none [32] with
      | .error f => .error f
      | .ok (target, m2, save2) =>
        match strtok m2 save2 target [63] with
        | .error f => .error f
        | .ok (path, m3, save3) =>
          match string_at m3 path with
          | .error f => .error f
          | .ok ps =>
            match strtok m3 save3 none [63] with
            | .error f => .error f
            | .ok (params, m4, _) =>
              match params with
              | none => .ok { req1 with path := some (copy_unterminated ps) }
              | some q =>
                match string_at m4 (some q) with
                | .error f => .error f
                | .ok qs =>
                  parse_query MAX_QUERY_PARAMS
                    { req1 with path := some (copy_unterminated ps) } qs

/-- `int parse_req_start_line(ClientState *client)` without its call of
`log_request`: the client at that call and the value that the `return` behind the
call gives.  The call assigns nothing; `parse_req_start_line_logged` is the function
with it. -/
def parse_req_start_line (MAXLINE MAX_QUERY_PARAMS : Nat) (mem : Nat → Nat)
    (client : ClientState) : Except Fault (Int × ClientState) :=
  let wh := find_network_newline client.buf client.num_bytes
  if wh > 0 then
    match copy_line MAXLINE client.buf wh.toNat with
    | .error f => .error f
    | .ok startline_str =>
      match parse_line MAX_QUERY_PARAMS startline_str with
      | .error f => .error f
      | .ok req =>
        match remove_buffered_line MAXLINE mem { client with reqData := some req } with
        | .error f => .error f
        | .ok client1 => .ok (1, client1)
  else .ok (0, client)

/-- The C string held in a block: the bytes before the first NUL, when every byte
up to that NUL was written. -/
def block_string : Block → Option (List Nat)
  | [] => none
  | none :: _ => none
  | some b :: rest =>
    if b = 0 then some []
    else
      match block_string rest with
      | some s => some (b :: s)
      | none => none

/-! ## Predicates and values of the statements -/

/-- The bytes `xs` hold none of the delimiters and no NUL. -/
def Free (delim : List Nat) (xs : List Nat) : Prop := ∀ b ∈ xs, b ≠ 0 ∧ b ∉ delim

instance (delim xs : List Nat) : Decidable (Free delim xs) := by
  unfold Free; infer_instance

/-- The request after the method branch, for the method token `T`. -/
def with_method (req : ReqData) (T : List Nat) : ReqData :=
  if T = GET ∨ T = POST then { req with method := some (copy_unterminated T) } else req

/-- The request part of a start line: target `P` or `P ? Q`. -/
def target_of (P : List Nat) (Q : Option (List Nat)) : List Nat :=
  match Q with
  | none => P
  | some q => P ++ 63 :: q

/-- The start line `T SP P SP W` or `T SP P ? Q SP W`. -/
def start_line (T P : List Nat) (Q : Option (List Nat)) (W : List Nat) : List Nat :=
  T ++ 32 :: (target_of P Q ++ 32 :: W)

/-- The request that `parse_req_start_line` builds from the tokens `T`, `P` and `Q`. -/
def request_of_tokens (MAX_QUERY_PARAMS : Nat) (T P : List Nat) (Q : Option (List Nat)) :
    Except Fault ReqData :=
  match Q with
  | none =>
    .ok { with_method (fresh_req MAX_QUERY_PARAMS) T with path := some (copy_unterminated P) }
  | some q =>
    parse_query MAX_QUERY_PARAMS
      { with_method (fresh_req MAX_QUERY_PARAMS) T with path := some (copy_unterminated P) } q

/-- The tokens of a start line: non-empty, without space, `'?'` and NUL. -/
def Tokens (T P : List Nat) (Q : Option (List Nat)) : Prop :=
  Free [32] T ∧ T ≠ [] ∧ Free [32, 63] P ∧ P ≠ [] ∧
    match Q with
    | none => True
    | some q => Free [32, 63] q ∧ q ≠ []

instance (T P : List Nat) (Q : Option (List Nat)) : Decidable (Tokens T P Q) := by
  unfold Tokens
  cases Q <;> infer_instance

/-- The client that `parse_req_start_line` leaves when it has built `req`. -/
def after_line (MAXLINE : Nat) (mem : Nat → Nat) (c : ClientState) (req : ReqData) :
    ClientState :=
  { c with
    reqData := some req,
    num_bytes := c.num_bytes - find_network_newline c.buf c.num_bytes,
    buf := (List.range (c.num_bytes - find_network_newline c.buf c.num_bytes).toNat).map
             (fun j => mem ((find_network_newline c.buf c.num_bytes).toNat * MAXLINE + j))
           ++ c.buf.drop (c.num_bytes - find_network_newline c.buf c.num_bytes).toNat }

/-- The buffer after a read that delivers `d` behind the first `k` bytes. -/
def buf_after_read (buf : List Nat) (k : Nat) (d : List Nat) : List Nat :=
  (buf.take k ++ d ++ buf.drop (k + d.length)).set (k + d.length) 0

/-- One call on a client: a read with what the socket has, a line removal, or a
start-line parse; the last two with the memory that surrounds the buffer. -/
inductive Call where
  | read (r : ReadResult)
  | remove (mem : Nat → Nat)
  | parse (mem : Nat → Nat)

/-- The client after one call. -/
def run_call (MAXLINE MAX_QUERY_PARAMS : Nat) (k : Call) (c : ClientState) :
    Except Fault ClientState :=
  match k with
  | .read r =>
    match read_from_client MAXLINE r c with
    | .ok (_, c1) => .ok c1
    | .error f => .error f
  | .remove mem => remove_buffered_line MAXLINE mem c
  | .parse mem =>
    match parse_req_start_line MAXLINE MAX_QUERY_PARAMS mem c with
    | .ok (_, c1) => .ok c1
    | .error f => .error f

/-- The client after a sequence of calls; a fault ends the run. -/
def run_calls (MAXLINE MAX_QUERY_PARAMS : Nat) : List Call → ClientState → Except Fault ClientState
  | [], c => .ok c
  | k :: ks, c =>
    match run_call MAXLINE MAX_QUERY_PARAMS k c with
    | .ok c1 => run_calls MAXLINE MAX_QUERY_PARAMS ks c1
    | .error f => .error f

/-- The outcome of a run respects the bounds of the buffer: the client it ends in
has a buffer of `MAXLINE` bytes and `0 ≤ num_bytes ≤ MAXLINE - 1`, and a fault it
ends in is not a store into the buffer outside `[0, MAXLINE)`. -/
def KeepsBounds (MAXLINE : Nat) : Except Fault ClientState → Prop
  | .ok c => c.buf.length = MAXLINE ∧ 0 ≤ c.num_bytes ∧ c.num_bytes ≤ (MAXLINE : Int) - 1
  | .error f => f ≠ .bufferOverflow

/-- Deliver the chunks one read at a time, calling `parse_req_start_line` after each
read, until it returns 1: the client at that point, or `none` when the chunks run
out first. -/
def feed_chunks (MAXLINE MAX_QUERY_PARAMS : Nat) (mem : Nat → Nat) :
    List (List Nat) → ClientState → Except Fault (Option ClientState)
  | [], _ => .ok none
  | ch :: rest, c =>
    match read_from_client MAXLINE (.data ch) c with
    | .error f => .error f
    | .ok (_, c1) =>
      match parse_req_start_line MAXLINE MAX_QUERY_PARAMS mem c1 with
      | .error f => .error f
      | .ok (r, c2) =>
        if r = 1 then .ok (some c2) else feed_chunks MAXLINE MAX_QUERY_PARAMS mem rest c2

/-- Deliver `s` in one read and call `parse_req_start_line` once. -/
def one_read (MAXLINE MAX_QUERY_PARAMS : Nat) (mem : Nat → Nat) (s : List Nat)
    (c : ClientState) : Except Fault (Int × ClientState) :=
  match read_from_client MAXLINE (.data s) c with
  | .error f => .error f
  | .ok (_, c1) => parse_req_start_line MAXLINE MAX_QUERY_PARAMS mem c1

/-- The copy of the first framed line of `s` in `startline_str`. -/
def line_copy (MAXLINE : Nat) (s : List Nat) : Block :=
  (s.take (find_network_newline s s.length).toNat).map some ++
    List.replicate (MAXLINE - (find_network_newline s s.length).toNat) none

/-! ## Multipart upload: get_boundary, get_bitmap_filename, save_file_upload

The three functions loop over `read_from_client`.  The socket is a function
`sock`, which gives what the socket has for the `n`-th `read` of the call; the
loops take fuel, and a call whose fuel runs out inside a loop is `Run.running`. -/

/-- How a call that loops ends. -/
inductive Run (α : Type) where
  /-- the call returned this value -/
  | returned (a : α)
  /-- the call left defined behaviour -/
  | faulted (f : Fault)
  /-- the call is still inside its loop when the fuel is used up -/
  | running
  deriving DecidableEq, Repr

/-- `strncmp(a, b, n) == 0`; a list that ends stands for a string that ends. -/
def strncmp_eq : Nat → List Nat → List Nat → Bool
  | 0, _, _ => true
  | n + 1, a, b =>
    if a.headD 0 ≠ b.headD 0 then false
    else if a.headD 0 = 0 then true
    else strncmp_eq n a.tail b.tail

/-- `strncpy(dst, src, n)`: exactly `n` bytes are stored, the bytes of the string
`src` and then NULs when the string is shorter than `n`. -/
def strncpy (dst : Block) (src : List Nat) (n : Nat) : Except Fault Block :=
  if n ≤ dst.length then
    .ok (((src.take (strlen src)).take n ++ List.replicate (n - strlen src) 0).map some
      ++ dst.drop n)
  else .error .blockOverflow

/-- `strncat(dst, src, n)`: at most `n` bytes of the string `src` are stored behind
the string in `dst`, and a NUL behind them. -/
def strncat (dst : Block) (src : List Nat) (n : Nat) : Except Fault Block :=
  match strcspn [] dst with
  | .error f => .error f
  | .ok k =>
    if k + ((src.take (strlen src)).take n).length + 1 ≤ dst.length then
      .ok (dst.take k ++ ((src.take (strlen src)).take n).map some ++
        some 0 :: dst.drop (k + ((src.take (strlen src)).take n).length + 1))
    else .error .blockOverflow

/-- The assignment `p[i] = v` into a block. -/
def store_cell (p : Block) (i : Int) (v : Nat) : Except Fault Block :=
  if 0 ≤ i ∧ i < p.length then .ok (p.set i.toNat (some v))
  else .error .blockOverflow

/-- The branch of `get_boundary` that has found the header line: the block
returned.  `hdr` is the macro `POST_BOUNDARY_HEADER` of the absent `request.h`. -/
def boundary_of_line (hdr : List Nat) (buf : List Nat) (wh : Int) : Except Fault Block :=
  let len_header : Int := strlen hdr
  match strncpy (List.replicate (size_t_of_int (wh - len_header + 1)) none) (bytes "--")
      (size_t_of_int (wh - len_header + 1)) with
  | .error f => .error f
  | .ok b1 =>
    match strncat b1 (buf.drop (strlen hdr)) (size_t_of_int (wh - len_header - 1)) with
    | .error f => .error f
    | .ok b2 => store_cell b2 (wh - len_header) 0

/-- `char *get_boundary(ClientState *client)`: the block returned (`none` is
`NULL`), the client after the call, and the number of reads made so far. -/
def get_boundary (MAXLINE : Nat) (hdr : List Nat) (mem : Nat → Nat) (sock : Nat → ReadResult) :
    Nat → Nat → ClientState → Run (Option Block × ClientState × Nat)
  | 0, _, _ => .running
  | fuel + 1, n, client =>
    let wh := find_network_newline client.buf client.num_bytes
    if wh > 0 then
      if wh < (strlen hdr : Int) ∨ strncmp_eq (strlen hdr) hdr client.buf = false then
        match remove_buffered_line MAXLINE mem client with
        | .error f => .faulted f
        | .ok client1 => get_boundary MAXLINE hdr mem sock fuel n client1
      else
        match boundary_of_line hdr client.buf wh with
        | .error f => .faulted f
        | .ok boundary => .returned (some boundary, client, n)
    else
      match read_from_client MAXLINE (sock n) client with
      | .error f => .faulted f
      | .ok (r, client1) =>
        if r ≤ 0 then .returned (none, client1, n + 1)
        else get_boundary MAXLINE hdr mem sock fuel (n + 1) client1

/-- `strrchr(s, ch)` for `ch` other than NUL: the last index of `ch` in the string
`s`, `none` for `NULL`. -/
def strrchr (s : List Nat) (ch : Nat) : Option Nat :=
  ((List.range (strlen s)).filter (fun i => s[i]? = some ch)).getLast?

/-- The first loop of `get_bitmap_filename`: lines are removed up to and with the
first line that starts with the boundary; `none` when the function has returned
`NULL` from inside the loop. -/
def skip_to_boundary (MAXLINE : Nat) (mem : Nat → Nat) (sock : Nat → ReadResult)
    (boundary : List Nat) : Nat → Nat → ClientState → Run (Option ClientState × Nat)
  | 0, _, _ => .running
  | fuel + 1, n, client =>
    let wh := find_network_newline client.buf client.num_bytes
    if wh > 0 then
      if wh < (strlen boundary : Int) + 2 ∨
          strncmp_eq (strlen boundary) boundary client.buf = false then
        match remove_buffered_line MAXLINE mem client with
        | .error f => .faulted f
        | .ok client1 => skip_to_boundary MAXLINE mem sock boundary fuel n client1
      else
        match remove_buffered_line MAXLINE mem client with
        | .error f => .faulted f
        | .ok client1 => .returned (some client1, n)
    else
      match read_from_client MAXLINE (sock n) client with
      | .error f => .faulted f
      | .ok (r, client1) =>
        if r ≤ 0 then .returned (none, n + 1)
        else skip_to_boundary MAXLINE mem sock boundary fuel (n + 1) client1

/-- The statements of `get_bitmap_filename` behind its loop: the block returned
and the client after the call.  When `strrchr` returns `NULL`, the pointer
`NULL + 2` is read; when `len_filename` is negative, the count of `strncpy` wraps
around as `size_t` and the store runs past the block. -/
def filename_of_line (MAXLINE : Nat) (mem : Nat → Nat) (client : ClientState) :
    Except Fault (Block × ClientState) :=
  let wh := find_network_newline client.buf client.num_bytes
  match store_byte client.buf (wh - 1) 0 with
  | .error f => .error f
  | .ok buf1 =>
    match strrchr buf1 61 with
    | none => .error .nullDeref
    | some e =>
      let len_filename : Int := wh - 3 - ((e : Int) + 2)
      if len_filename < 0 then .error .blockOverflow
      else
        match strncpy (List.replicate (len_filename.toNat + 1) none) (buf1.drop (e + 2))
            len_filename.toNat with
        | .error f => .error f
        | .ok f1 =>
          match store_cell f1 len_filename 0 with
          | .error f => .error f
          | .ok filename =>
            match store_byte buf1 (wh - 1) 10 with
            | .error f => .error f
            | .ok buf2 =>
              match remove_buffered_line MAXLINE mem { client with buf := buf2 } with
              | .error f => .error f
              | .ok client2 => .ok (filename, client2)

/-- `char *get_bitmap_filename(ClientState *client, const char *boundary)`: the
block returned (`none` is `NULL`) and the client after the call. -/
def get_bitmap_filename (MAXLINE : Nat) (mem : Nat → Nat) (sock : Nat → ReadResult)
    (fuel : Nat) (client : ClientState) (boundary : List Nat) :
    Run (Option Block × Option ClientState) :=
  match skip_to_boundary MAXLINE mem sock boundary fuel 0 client with
  | .running => .running
  | .faulted f => .faulted f
  | .returned (none, _) => .returned (none, none)
  | .returned (some client1, _) =>
    match filename_of_line MAXLINE mem client1 with
    | .error f => .faulted f
    | .ok (filename, client2) => .returned (some filename, some client2)

/-- The local array `end` of `save_file_upload` after the three statements that
fill it.  `stack` is what the stack holds where the array is placed (`none` for a
byte never written); the array has `6 + strlen(boundary)` bytes. -/
def build_end (stack : Block) (boundary : List Nat) : Except Fault Block :=
  match strncpy (stack.take (6 + strlen boundary) ++
      List.replicate (6 + strlen boundary - stack.length) none) [13, 10] 2 with
  | .error f => .error f
  | .ok e1 =>
    match strncat e1 boundary (strlen boundary) with
    | .error f => .error f
    | .ok e2 => strncat e2 [45, 13, 10, 0] 4

/-- The condition `strlen(client->buf) == MAXLINE`: no NUL in the `MAXLINE` bytes of
the buffer and a NUL right behind it. -/
def flush_condition (MAXLINE : Nat) (mem : Nat → Nat) (buf : List Nat) : Bool :=
  (List.range MAXLINE).all (fun k => peek buf mem k ≠ 0) && peek buf mem MAXLINE == 0

/-- The condition `strncmp(client->buf, end, strlen(end)) == 0` for the string
`pattern` held in `end`. -/
def front_matches (mem : Nat → Nat) (buf : List Nat) (pattern : List Nat) : Bool :=
  strncmp_eq (strlen pattern) ((List.range (strlen pattern)).map (peek buf mem)) pattern

/-- `memset(client->buf, '\0', MAXLINE)`. -/
def clear_buf (MAXLINE : Nat) (buf : List Nat) : Except Fault (List Nat) :=
  if MAXLINE ≤ buf.length then .ok (List.replicate MAXLINE 0 ++ buf.drop MAXLINE)
  else .error .bufferOverflow

/-- A call of `save_file_upload` as far as it has come: how it ended, the client, the
bytes written to `file_fd` so far, and the number of reads made. -/
structure Upload where
  run : Run Int
  client : ClientState
  written : List Nat
  reads : Nat

/-- The `while` loop of `save_file_upload`; `pattern` is the string in `end`, `w` the
bytes written to `file_fd` so far, `n` the number of reads made. -/
def save_file_upload_loop (MAXLINE : Nat) (mem : Nat → Nat) (sock : Nat → ReadResult)
    (pattern : List Nat) : Nat → ClientState → List Nat → Nat → Upload
  | 0, client, w, n => { run := .running, client := client, written := w, reads := n }
  | fuel + 1, client, w, n =>
    if front_matches mem client.buf pattern then
      { run := .returned 0, client := client, written := w, reads := n }
    else if flush_condition MAXLINE mem client.buf then
      match clear_buf MAXLINE client.buf with
      | .error f =>
        { run := .faulted f, client := client,
          written := w ++ (List.range MAXLINE).map (peek client.buf mem), reads := n }
      | .ok buf1 =>
        match read_from_client MAXLINE (sock n) { client with buf := buf1 } with
        | .error f =>
          { run := .faulted f, client := { client with buf := buf1 },
            written := w ++ (List.range MAXLINE).map (peek client.buf mem), reads := n }
        | .ok (_, client1) =>
          save_file_upload_loop MAXLINE mem sock pattern fuel client1
            (w ++ (List.range MAXLINE).map (peek client.buf mem)) (n + 1)
    else
      match read_from_client MAXLINE (sock n) client with
      | .error f => { run := .faulted f, client := client, written := w, reads := n }
      | .ok (_, client1) => save_file_upload_loop MAXLINE mem sock pattern fuel client1 w (n + 1)

/-- `int save_file_upload(ClientState *client, const char *boundary, int file_fd)`. -/
def save_file_upload (MAXLINE : Nat) (mem : Nat → Nat) (sock : Nat → ReadResult)
    (stack : Block) (fuel : Nat) (client : ClientState) (boundary : List Nat) : Upload :=
  match remove_buffered_line MAXLINE mem client with
  | .error f => { run := .faulted f, client := client, written := [], reads := 0 }
  | .ok client1 =>
    match remove_buffered_line MAXLINE mem client1 with
    | .error f => { run := .faulted f, client := client1, written := [], reads := 0 }
    | .ok client2 =>
      match build_end stack boundary with
      | .error f => { run := .faulted f, client := client2, written := [], reads := 0 }
      | .ok e =>
        match string_at e (some 0) with
        | .error f => { run := .faulted f, client := client2, written := [], reads := 0 }
        | .ok pattern => save_file_upload_loop MAXLINE mem sock pattern fuel client2 [] 0

/-- The client has a NUL at or behind `buf[num_bytes]`, inside the buffer. -/
def Sentinel (MAXLINE : Nat) (c : ClientState) : Prop :=
  ∃ k : Nat, c.num_bytes ≤ (k : Int) ∧ k < MAXLINE ∧ c.buf[k]? = some 0

/-- Modelled from the spec: the macro `POST_BOUNDARY_HEADER` of the absent
`request.h`, the fixed header token in front of the boundary literal. -/
def POST_BOUNDARY_HEADER : List Nat := bytes "Content-Type: multipart/form-data; boundary="

/-- The socket of a peer that has closed: every read delivers zero bytes. -/
def closed_sock : Nat → ReadResult := fun _ => .data []


/-! ## log_request and the whole parse_req_start_line -/

/-- What `fprintf` prints for one `%s` argument: the C string at the pointer.  A
pointer that was never assigned is read like a byte that was never written. -/
def print_string (p : Option Block) : Except Fault (List Nat) :=
  match p with
  | none => .error .uninitRead
  | some b => string_at b (some 0)

/-- The `for` loop of `log_request`, over the slots from `i` on.  The test
`req->params[i].name != NULL` reads the pointer, which `malloc(sizeof(ReqData))`
left unwritten unless `parse_query` assigned it; the end of the list is the test
`i < MAX_QUERY_PARAMS`. -/
def log_params : List Fdata → Except Fault (List Nat)
  | [] => .ok []
  | f :: rest =>
    match f.name with
    | none => .error .uninitRead
    | some name =>
      match print_string (some name) with
      | .error e => .error e
      | .ok n =>
        match print_string f.value with
        | .error e => .error e
        | .ok v =>
          match log_params rest with
          | .error e => .error e
          | .ok t => .ok (bytes "  " ++ n ++ bytes " -> " ++ v ++ bytes "\n" ++ t)

/-- `void log_request(const ReqData *req)`: the bytes printed to `stderr`. -/
def log_request (MAX_QUERY_PARAMS : Nat) (req : ReqData) : Except Fault (List Nat) :=
  match print_string req.method with
  | .error e => .error e
  | .ok m =>
    match print_string req.path with
    | .error e => .error e
    | .ok p =>
      match log_params (req.params.take MAX_QUERY_PARAMS) with
      | .error e => .error e
      | .ok t => .ok (bytes "Request parsed: [" ++ m ++ bytes "] [" ++ p ++ bytes "]\n" ++ t)

/-- `int parse_req_start_line(ClientState *client)` with its call of `log_request`:
the value returned, the client after the call and the bytes printed. -/
def parse_req_start_line_logged (MAXLINE MAX_QUERY_PARAMS : Nat) (mem : Nat → Nat)
    (client : ClientState) : Except Fault (Int × ClientState × List Nat) :=
  let wh := find_network_newline client.buf client.num_bytes
  if wh > 0 then
    match copy_line MAXLINE client.buf wh.toNat with
    | .error f => .error f
    | .ok startline_str =>
      match parse_line MAX_QUERY_PARAMS startline_str with
      | .error f => .error f
      | .ok req =>
        match remove_buffered_line MAXLINE mem { client with reqData := some req } with
        | .error f => .error f
        | .ok client1 =>
          match client1.reqData with
          | none => .error .nullDeref
          | some req1 =>
            match log_request MAX_QUERY_PARAMS req1 with
            | .error f => .error f
            | .ok text => .ok (1, client1, text)
  else .ok (0, client, [])

/-- The statements `char startline_str[MAXLINE]; memcpy(startline_str, client->buf,
where);` where the `MAXLINE` bytes of the stack that the array is placed on hold
`stack` (`none` for a byte never written, also behind the end of `stack`): behind
the line the array holds what the stack held. -/
def copy_line_on (stack : Block) (MAXLINE : Nat) (buf : List Nat) (wh : Nat) :
    Except Fault Block :=
  if wh ≤ MAXLINE ∧ wh ≤ buf.length then
    .ok ((buf.take wh).map some ++
      (stack.take MAXLINE ++ List.replicate (MAXLINE - stack.length) none).drop wh)
  else .error .outOfBounds

/-- The function `parse_req_start_line` (without its call of `log_request`) where the
stack holds `stack` at the place of `startline_str`. -/
def parse_req_start_line_on (stack : Block) (MAXLINE MAX_QUERY_PARAMS : Nat)
    (mem : Nat → Nat) (client : ClientState) : Except Fault (Int × ClientState) :=
  let wh := find_network_newline client.buf client.num_bytes
  if wh > 0 then
    match copy_line_on stack MAXLINE client.buf wh.toNat with
    | .error f => .error f
    | .ok startline_str =>
      match parse_line MAX_QUERY_PARAMS startline_str with
      | .error f => .error f
      | .ok req =>
        match remove_buffered_line MAXLINE mem { client with reqData := some req } with
        | .error f => .error f
        | .ok client1 => .ok (1, client1)
  else .ok (0, client)

/-- A stack of `n` bytes that are 0. -/
def zeroed (n : Nat) : Block := List.replicate n (some 0)


/-! ## Theorems -/






/-- The loop of `find_network_newline`, started at `i` with the fuel that is left
of `inbuf`, either finds the first pair at or after `i`, or finds that there is
none at or after `i`. -/
theorem find_network_newline_loop_cases (buf : List Nat) (inbuf : Int) :
    ∀ (fuel i : Nat), (inbuf.toNat ≤ fuel + i) →
      (∃ k : Nat, i ≤ k ∧ (k : Int) + 1 < inbuf ∧ CRLFAt buf k ∧
          (∀ j, i ≤ j → j < k → ¬ CRLFAt buf j) ∧
          find_network_newline_loop buf inbuf fuel i = (k : Int) + 2) ∨
      ((∀ j : Nat, i ≤ j → (j : Int) + 1 < inbuf → ¬ CRLFAt buf j) ∧
          find_network_newline_loop buf inbuf fuel i = -1) := by
  intro fuel
  induction fuel with
  | zero =>
    intro i hi
    right
    refine ⟨?_, rfl⟩
    intro j hij hj
    omega
  | succ fuel ih =>
    intro i hi
    unfold find_network_newline_loop
    by_cases hlt : (i : Int) < inbuf - 1
    · rw [if_pos hlt]
      by_cases hc : buf[i]? = some CR ∧ buf[i + 1]? = some LF
      · rw [if_pos hc]
        left
        exact ⟨i, le_refl i, by omega, hc, fun j h1 h2 => by omega, rfl⟩
      · rw [if_neg hc]
        rcases ih (i + 1) (by omega) with ⟨k, hk1, hk2, hk3, hk4, hk5⟩ | ⟨hno, hr⟩
        · left
          refine ⟨k, by omega, hk2, hk3, ?_, hk5⟩
          intro j h1 h2
          by_cases hji : j = i
          · subst hji; exact hc
          · exact hk4 j (by omega) h2
        · right
          refine ⟨?_, hr⟩
          intro j h1 h2
          by_cases hji : j = i
          · subst hji; exact hc
          · exact hno j (by omega) h2
    · rw [if_neg hlt]
      right
      refine ⟨?_, rfl⟩
      intro j hij hj
      omega

/-- `find_network_newline` either returns `k + 2` for the first pair `k`, or `-1`
when the first `inbuf` bytes hold no pair. -/
theorem find_network_newline_cases (buf : List Nat) (inbuf : Int) :
    (∃ k : Nat, (k : Int) + 1 < inbuf ∧ CRLFAt buf k ∧ (∀ j, j < k → ¬ CRLFAt buf j) ∧
        find_network_newline buf inbuf = (k : Int) + 2) ∨
    ((∀ j : Nat, (j : Int) + 1 < inbuf → ¬ CRLFAt buf j) ∧
        find_network_newline buf inbuf = -1) := by
  unfold find_network_newline
  rcases find_network_newline_loop_cases buf inbuf inbuf.toNat 0 (by omega) with
    ⟨k, _, hk2, hk3, hk4, hk5⟩ | ⟨hno, hr⟩
  · left
    exact ⟨k, hk2, hk3, fun j hj => hk4 j (Nat.zero_le j) hj, hk5⟩
  · right
    exact ⟨fun j hj => hno j (Nat.zero_le j) hj, hr⟩

/-- The first pair inside the first `inbuf` bytes is the one that is returned. -/
theorem find_network_newline_first (buf : List Nat) (inbuf : Int) (i : Nat)
    (hi1 : (i : Int) + 1 < inbuf) (hi2 : CRLFAt buf i) (hi3 : ∀ j, j < i → ¬ CRLFAt buf j) :
    find_network_newline buf inbuf = (i : Int) + 2 := by
  rcases find_network_newline_cases buf inbuf with ⟨k, hk1, hk2, hk3, hk4⟩ | ⟨hno, _⟩
  · have hik : i = k := by
      rcases Nat.lt_trichotomy i k with h | h | h
      · exact absurd hi2 (hk3 i h)
      · exact h
      · exact absurd hk2 (hi3 k h)
    rw [hk4, hik]
  · exact absurd hi2 (hno i hi1)

/-- C2: for `0 ≤ inbuf ≤ |buf|`, `find_network_newline buf inbuf` is `i + 2` for the
smallest index `i` with `i + 1 < inbuf`, `buf[i] = CR` and `buf[i+1] = LF`; it is
`-1` exactly when there is no such index; a non-negative result `r` has
`2 ≤ r ≤ inbuf`. -/
theorem find_network_newline_spec (buf : List Nat) (inbuf : Int)
    (h0 : 0 ≤ inbuf) (h1 : inbuf ≤ (buf.length : Int)) :
    (∀ i : Nat, (i : Int) + 1 < inbuf → CRLFAt buf i → (∀ j, j < i → ¬ CRLFAt buf j) →
        find_network_newline buf inbuf = (i : Int) + 2) ∧
    (find_network_newline buf inbuf = -1 ↔
        ¬ ∃ i : Nat, (i : Int) + 1 < inbuf ∧ CRLFAt buf i) ∧
    (0 ≤ find_network_newline buf inbuf →
        2 ≤ find_network_newline buf inbuf ∧ find_network_newline buf inbuf ≤ inbuf) := by
  rcases find_network_newline_cases buf inbuf with ⟨k, hk1, hk2, hk3, hk4⟩ | ⟨hno, hr⟩
  · refine ⟨?_, ?_, ?_⟩
    · intro i hi1 hi2 hi3
      have hik : i = k := by
        rcases Nat.lt_trichotomy i k with h | h | h
        · exact absurd hi2 (hk3 i h)
        · exact h
        · exact absurd hk2 (hi3 k h)
      rw [hk4, hik]
    · constructor
      · intro h; rw [hk4] at h; omega
      · intro h; exact absurd ⟨k, hk1, hk2⟩ h
    · intro _; rw [hk4]; omega
  · refine ⟨?_, ?_, ?_⟩
    · intro i hi1 hi2 _
      exact absurd hi2 (hno i hi1)
    · constructor
      · rintro _ ⟨i, hi1, hi2⟩
        exact hno i hi1 hi2
      · intro _; exact hr
    · intro h; rw [hr] at h; omega

/-- Witness for C2 on the buffer of the source's own example. -/
theorem find_network_newline_spec_witness :
    find_network_newline (bytes "hello\r\ngoodbye\r\nblah") 20 = ((5 : Nat) : Int) + 2 :=
  (find_network_newline_spec (bytes "hello\r\ngoodbye\r\nblah") 20 (by decide) (by decide)).1
    5 (by decide) (by decide) (by decide)

/-- What `remove_buffered_line` does when a line is framed: `num_bytes` drops by the
line's length, and the new front of the buffer is read at offset `where * MAXLINE`,
which lies outside the buffer. -/
theorem remove_buffered_line_found (MAXLINE : Nat) (mem : Nat → Nat) (c : ClientState)
    (hlen : c.buf.length = MAXLINE) (hnb : c.num_bytes ≤ (MAXLINE : Int))
    (hw : 0 < find_network_newline c.buf c.num_bytes) :
    remove_buffered_line MAXLINE mem c =
      .ok { c with
        num_bytes := c.num_bytes - find_network_newline c.buf c.num_bytes,
        buf := (List.range (c.num_bytes - find_network_newline c.buf c.num_bytes).toNat).map
                 (fun j => mem ((find_network_newline c.buf c.num_bytes).toNat * MAXLINE + j))
               ++ c.buf.drop (c.num_bytes - find_network_newline c.buf c.num_bytes).toNat } := by
  unfold remove_buffered_line memmove_to_front
  simp only [gt_iff_lt, hw, if_true]
  have hn : (c.num_bytes - find_network_newline c.buf c.num_bytes).toNat ≤ c.buf.length := by
    omega
  rw [if_pos hn]
  have hpeek : ∀ j : Nat,
      peek c.buf mem ((find_network_newline c.buf c.num_bytes).toNat * MAXLINE + j)
        = mem ((find_network_newline c.buf c.num_bytes).toNat * MAXLINE + j) := by
    intro j
    have hge : c.buf.length ≤ (find_network_newline c.buf c.num_bytes).toNat * MAXLINE + j := by
      have h1 : 1 ≤ (find_network_newline c.buf c.num_bytes).toNat := by omega
      calc c.buf.length = 1 * MAXLINE := by omega
        _ ≤ (find_network_newline c.buf c.num_bytes).toNat * MAXLINE :=
            Nat.mul_le_mul_right MAXLINE h1
        _ ≤ _ := Nat.le_add_right _ _
    unfold peek
    rw [List.getElem?_eq_none hge]
  simp only [hpeek]

/-- When no line is framed, `remove_buffered_line` returns the client as it is. -/
theorem remove_buffered_line_not_found (MAXLINE : Nat) (mem : Nat → Nat) (c : ClientState)
    (hw : ¬ 0 < find_network_newline c.buf c.num_bytes) :
    remove_buffered_line MAXLINE mem c = .ok c := by
  unfold remove_buffered_line
  simp only [gt_iff_lt, hw, if_false]

/-- C1 (the code at the failing input): on a buffer holding
"hello\r\ngoodbye\r\nblah", `remove_buffered_line` sets `num_bytes` to 13, but the 13
bytes it moves to the front are those at offsets `7 * MAXLINE ..` outside the
buffer, whatever they are; with that memory holding 'X' the valid region is not
"goodbye\r\nblah". -/
theorem remove_buffered_line_example_garbage :
    (∀ mem : Nat → Nat, ∃ c,
      remove_buffered_line 32 mem (client_holding 32 (bytes "hello\r\ngoodbye\r\nblah")) = .ok c ∧
      c.num_bytes = 13 ∧
      c.buf.take 13 = (List.range 13).map (fun j => mem (7 * 32 + j))) ∧
    (∃ c, remove_buffered_line 32 (fun _ => 88)
        (client_holding 32 (bytes "hello\r\ngoodbye\r\nblah")) = .ok c ∧
      c.buf.take c.num_bytes.toNat ≠ bytes "goodbye\r\nblah") := by
  constructor
  · intro mem
    exact ⟨_, rfl, rfl, rfl⟩
  · exact ⟨_, rfl, by decide⟩

/-- A store right behind `A ++ D` lands on the first byte of what follows. -/
theorem store_after_eq (A D R : List Nat) (v k n : Nat) (hk : A.length = k)
    (hn : D.length = n) :
    (A ++ D ++ R).set (k + n) v = A ++ D ++ R.set 0 v := by
  subst hk hn
  rw [List.set_append]
  simp

/-- In a well-formed client, a read that delivers the `n ≥ 1` bytes `d`, with
`n ≤ MAXLINE - num_bytes - 1`, returns `n` and leaves `buf_after_read`. -/
theorem read_from_client_delivers (MAXLINE : Nat) (c : ClientState) (d : List Nat)
    (hwf : c.WellFormed MAXLINE) (hd1 : 1 ≤ d.length)
    (hd2 : (d.length : Int) ≤ (MAXLINE : Int) - c.num_bytes - 1) :
    read_from_client MAXLINE (.data d) c = .ok ((d.length : Int), { c with
      buf := buf_after_read c.buf c.num_bytes.toNat d,
      num_bytes := c.num_bytes + d.length }) := by
  obtain ⟨hlen, hnb0, hnb1⟩ := hwf
  have hroom : size_t_of_int ((MAXLINE : Int) - c.num_bytes - 1)
      = ((MAXLINE : Int) - c.num_bytes - 1).toNat := by
    unfold size_t_of_int
    rw [if_neg (by omega)]
  have htake : d.take ((MAXLINE : Int) - c.num_bytes - 1).toNat = d :=
    List.take_of_length_le (by omega)
  have hne : d ≠ [] := by
    intro h; rw [h] at hd1; simp at hd1
  have hfit : 0 ≤ c.num_bytes ∧ c.num_bytes + (d.length : Int) ≤ (c.buf.length : Int) := by
    constructor <;> omega
  have hpos : ((d.length : Nat) : Int) > 0 := by omega
  have hk : c.num_bytes.toNat ≤ c.buf.length := by omega
  have hidx : 0 ≤ c.num_bytes + (d.length : Int) ∧
      c.num_bytes + (d.length : Int) <
        ((c.buf.take c.num_bytes.toNat ++ d ++ c.buf.drop (c.num_bytes.toNat + d.length)).length : Int) := by
    simp only [List.length_append, List.length_take, List.length_drop]
    constructor
    · omega
    · push_cast
      omega
  have hnat : (c.num_bytes + (d.length : Int)).toNat = c.num_bytes.toNat + d.length := by omega
  unfold read_from_client sys_read store_bytes store_byte buf_after_read
  simp only [hroom, htake, hne, if_false, hfit, and_self, if_true, hpos, hidx, hnat]

/-- The parts of the buffer after a read: the old valid region, the delivered
bytes, the NUL behind them; the length is kept. -/
theorem buf_after_read_parts (buf : List Nat) (k : Nat) (d : List Nat)
    (hk : k + d.length < buf.length) :
    (buf_after_read buf k d).take k = buf.take k ∧
    ((buf_after_read buf k d).drop k).take d.length = d ∧
    (buf_after_read buf k d)[k + d.length]? = some 0 ∧
    (buf_after_read buf k d).length = buf.length ∧
    (buf_after_read buf k d).take (k + d.length) = buf.take k ++ d := by
  have hk2 : k ≤ buf.length := by omega
  unfold buf_after_read
  rw [store_after_eq (buf.take k) d (buf.drop (k + d.length)) 0 k d.length
    (List.length_take_of_le hk2) rfl]
  have hl : (buf.take k ++ d).length = k + d.length := by
    rw [List.length_append, List.length_take_of_le hk2]
  refine ⟨?_, ?_, ?_, ?_, ?_⟩
  · rw [List.append_assoc, List.take_left' (List.length_take_of_le hk2)]
  · rw [List.append_assoc, List.drop_left' (List.length_take_of_le hk2), List.take_left' rfl]
  · rw [List.getElem?_append_right (by omega), hl, Nat.sub_self]
    have hR : 0 < (buf.drop (k + d.length)).length := by
      rw [List.length_drop]; omega
    rw [List.getElem?_set]
    simp only [if_true, hR]
  · simp only [List.length_append, List.length_take, List.length_drop, List.length_set]
    omega
  · rw [List.take_left' hl]

/-- C3: in a well-formed client, a read that delivers the `n ≥ 1` bytes `d`, with
`n ≤ MAXLINE - num_bytes - 1`, returns `n`, keeps the old valid region, stores `d`
right after it, adds `n` to `num_bytes` and puts a NUL at `buf[num_bytes]`. -/
theorem read_from_client_appends (MAXLINE : Nat) (c : ClientState) (d : List Nat)
    (hwf : c.WellFormed MAXLINE) (hd1 : 1 ≤ d.length)
    (hd2 : (d.length : Int) ≤ (MAXLINE : Int) - c.num_bytes - 1) :
    ∃ c2, read_from_client MAXLINE (.data d) c = .ok ((d.length : Int), c2) ∧
      c2.num_bytes = c.num_bytes + d.length ∧
      c2.buf.take c.num_bytes.toNat = c.buf.take c.num_bytes.toNat ∧
      (c2.buf.drop c.num_bytes.toNat).take d.length = d ∧
      c2.buf[c2.num_bytes.toNat]? = some 0 ∧
      c2.buf.length = MAXLINE ∧ c2.sock = c.sock ∧ c2.reqData = c.reqData := by
  have hrun := read_from_client_delivers MAXLINE c d hwf hd1 hd2
  obtain ⟨hlen, hnb0, hnb1⟩ := hwf
  have hparts := buf_after_read_parts c.buf c.num_bytes.toNat d (by omega)
  have hnat : (c.num_bytes + (d.length : Int)).toNat = c.num_bytes.toNat + d.length := by omega
  refine ⟨_, hrun, rfl, hparts.1, hparts.2.1, ?_, ?_, rfl, rfl⟩
  · simp only [hnat]
    exact hparts.2.2.1
  · simp only
    rw [hparts.2.2.2.1, hlen]

/-- Witness for C3: three bytes read into a 32-byte buffer that holds "hello\r\n". -/
theorem read_from_client_appends_witness :
    ∃ c2, read_from_client 32 (.data (bytes "abc")) (client_holding 32 (bytes "hello\r\n"))
        = .ok (((bytes "abc").length : Int), c2) ∧
      c2.num_bytes = (client_holding 32 (bytes "hello\r\n")).num_bytes + (bytes "abc").length ∧
      c2.buf.take (client_holding 32 (bytes "hello\r\n")).num_bytes.toNat
        = (client_holding 32 (bytes "hello\r\n")).buf.take
            (client_holding 32 (bytes "hello\r\n")).num_bytes.toNat ∧
      (c2.buf.drop (client_holding 32 (bytes "hello\r\n")).num_bytes.toNat).take
        (bytes "abc").length = bytes "abc" ∧
      c2.buf[c2.num_bytes.toNat]? = some 0 ∧
      c2.buf.length = 32 ∧ c2.sock = (client_holding 32 (bytes "hello\r\n")).sock ∧
      c2.reqData = (client_holding 32 (bytes "hello\r\n")).reqData :=
  read_from_client_appends 32 (client_holding 32 (bytes "hello\r\n")) (bytes "abc")
    (by decide) (by decide) (by decide)

/-! ### parse_query -/

/-- A string without NUL ends where its list ends. -/
theorem strlen_eq_length (str : List Nat) (h : ∀ b ∈ str, b ≠ 0) : strlen str = str.length := by
  unfold strlen
  rw [List.takeWhile_eq_self_iff.mpr]
  intro b hb
  simpa using h b hb

/-- The byte right behind a prefix. -/
theorem getElem?_after_prefix (A C : List Nat) (b : Nat) :
    (A ++ b :: C)[A.length]? = some b := by
  rw [List.getElem?_append_right (le_refl _)]
  simp

/-- `copy_run` at the end of `A ++ B` copies `B`. -/
theorem copy_run_eq (A B C : List Nat) :
    copy_run (A ++ B ++ C) (A.length + B.length) B.length = .ok (cstring B) := by
  unfold copy_run cstring
  rw [if_pos (by omega)]
  have h1 : A.length + B.length - B.length = A.length := by omega
  rw [h1, List.append_assoc, List.drop_left' rfl, List.take_left' rfl]

/-- The loop walks over a run of ordinary bytes, counting them in `len`. -/
theorem parse_query_loop_run (MAXQ : Nat) :
    ∀ (B A C : List Nat) (fuel len num : Nat) (req : ReqData),
      Plain B → num ≠ MAXQ → strlen (A ++ B ++ C) = (A ++ B ++ C).length →
      parse_query_loop MAXQ (A ++ B ++ C) (fuel + B.length) A.length len num req =
        parse_query_loop MAXQ (A ++ B ++ C) fuel (A.length + B.length) (len + B.length) num req := by
  intro B
  induction B with
  | nil => intro A C fuel len num req _ _ _; simp
  | cons b B ih =>
    intro A C fuel len num req hB hnum hstr
    have hb := hB b (List.mem_cons_self _ _)
    have hB2 : Plain B := fun x hx => hB x (List.mem_cons_of_mem _ hx)
    have e1 : A ++ b :: B ++ C = (A ++ [b]) ++ B ++ C := by simp
    have hfuel : fuel + (b :: B).length = (fuel + B.length) + 1 := by simp; omega
    rw [hfuel]
    conv_lhs => unfold parse_query_loop
    have hi : A.length < strlen (A ++ b :: B ++ C) := by
      rw [hstr]; simp
    have hget : (A ++ b :: B ++ C)[A.length]? = some b := by
      rw [List.append_assoc]; exact getElem?_after_prefix A (B ++ C) b
    rw [if_pos hi, hget]
    rw [if_neg (by simp; exact hb.1), if_neg (by simp; exact hb.2.1), if_neg hnum]
    have := ih (A ++ [b]) C fuel (len + 1) num req hB2 hnum (by rw [← e1]; exact hstr)
    rw [← e1] at this
    simp only [List.length_append, List.length_singleton] at this
    rw [this]
    simp only [List.length_cons]
    congr 1 <;> omega

/-- Past the end of the string the loop is left through its condition. -/
theorem parse_query_loop_at_end (MAXQ : Nat) (str : List Nat) (fuel i len num : Nat)
    (req : ReqData) (hi : strlen str ≤ i) :
    parse_query_loop MAXQ str fuel i len num req = .ok (i, len, num, req) := by
  cases fuel with
  | zero => rfl
  | succ fuel =>
    unfold parse_query_loop
    rw [if_neg (by omega)]

/-- The loop reads a name and its `'='`: the name is stored in slot `num`. -/
theorem parse_query_loop_name (MAXQ : Nat) (A n C : List Nat) (fuel num : Nat) (req : ReqData)
    (f : Fdata) (hn : Plain n) (hnum : num ≠ MAXQ) (hslot : req.params[num]? = some f)
    (hstr : strlen (A ++ n ++ 61 :: C) = (A ++ n ++ 61 :: C).length) :
    parse_query_loop MAXQ (A ++ n ++ 61 :: C) (fuel + 1 + n.length) A.length 0 num req =
      parse_query_loop MAXQ (A ++ n ++ 61 :: C) fuel (A.length + n.length + 1) 0 num
        { req with params := req.params.set num { f with name := some (cstring n) } } := by
  rw [parse_query_loop_run MAXQ n A (61 :: C) (fuel + 1) 0 num req hn hnum hstr]
  conv_lhs => unfold parse_query_loop
  have hi : A.length + n.length < strlen (A ++ n ++ 61 :: C) := by
    rw [hstr]; simp
  have hget : (A ++ n ++ 61 :: C)[A.length + n.length]? = some 61 := by
    have := getElem?_after_prefix (A ++ n) C 61
    rwa [List.length_append] at this
  rw [if_pos hi, if_pos hget, Nat.zero_add]
  rw [copy_run_eq A n (61 :: C)]
  simp only [set_name, hslot, if_neg hnum]

/-- The loop reads a value and its `'&'`: the value is stored in slot `num`, and the
loop goes on with the next slot. -/
theorem parse_query_loop_value (MAXQ : Nat) (A v C : List Nat) (fuel num : Nat) (req : ReqData)
    (f : Fdata) (hv : Plain v) (hnum : num ≠ MAXQ) (hnum1 : num + 1 ≠ MAXQ)
    (hslot : req.params[num]? = some f)
    (hstr : strlen (A ++ v ++ 38 :: C) = (A ++ v ++ 38 :: C).length) :
    parse_query_loop MAXQ (A ++ v ++ 38 :: C) (fuel + 1 + v.length) A.length 0 num req =
      parse_query_loop MAXQ (A ++ v ++ 38 :: C) fuel (A.length + v.length + 1) 0 (num + 1)
        { req with params := req.params.set num { f with value := some (cstring v) } } := by
  rw [parse_query_loop_run MAXQ v A (38 :: C) (fuel + 1) 0 num req hv hnum hstr]
  conv_lhs => unfold parse_query_loop
  have hi : A.length + v.length < strlen (A ++ v ++ 38 :: C) := by
    rw [hstr]; simp
  have hget : (A ++ v ++ 38 :: C)[A.length + v.length]? = some 38 := by
    have := getElem?_after_prefix (A ++ v) C 38
    rwa [List.length_append] at this
  rw [if_pos hi, hget, if_neg (by decide), if_pos rfl, Nat.zero_add]
  rw [copy_run_eq A v (38 :: C)]
  simp only [set_value, hslot, if_neg hnum1]

/-- The loop reads `name=value&`: slot `num` holds the pair, and the loop goes on
with the next slot. -/
theorem parse_query_loop_pair (MAXQ : Nat) (A n v C : List Nat) (fuel num : Nat) (req : ReqData)
    (hn : Plain n) (hv : Plain v) (hnum1 : num + 1 < MAXQ)
    (hlen : req.params.length = MAXQ)
    (hstr : strlen (A ++ (n ++ 61 :: v ++ 38 :: C)) = (A ++ (n ++ 61 :: v ++ 38 :: C)).length) :
    parse_query_loop MAXQ (A ++ (n ++ 61 :: v ++ 38 :: C)) (fuel + (n.length + v.length + 2))
        A.length 0 num req =
      parse_query_loop MAXQ (A ++ (n ++ 61 :: v ++ 38 :: C)) fuel
        ((A ++ (n ++ 61 :: v ++ [38])).length) 0 (num + 1)
        { req with params := req.params.set num (pair_slot (n, v)) } := by
  have hlt : num < req.params.length := by omega
  have e1 : A ++ (n ++ 61 :: v ++ 38 :: C) = A ++ n ++ 61 :: (v ++ 38 :: C) := by simp
  have e2 : A ++ (n ++ 61 :: v ++ 38 :: C) = (A ++ n ++ [61]) ++ v ++ 38 :: C := by simp
  have hf : fuel + (n.length + v.length + 2) = (fuel + 1 + v.length) + 1 + n.length := by omega
  rw [hf]
  have h1 := parse_query_loop_name MAXQ A n (v ++ 38 :: C) (fuel + 1 + v.length) num req
    (req.params[num]) hn (by omega) (List.getElem?_eq_getElem hlt) (by rw [← e1]; exact hstr)
  rw [← e1] at h1
  rw [h1]
  have h2 := parse_query_loop_value MAXQ (A ++ n ++ [61]) v C fuel num
    { req with params := req.params.set num { req.params[num] with name := some (cstring n) } }
    { req.params[num] with name := some (cstring n) } hv (by omega) (by omega)
    (by simp [List.getElem?_set, hlt]) (by rw [← e2]; exact hstr)
  rw [← e2] at h2
  simp only [List.length_append, List.length_singleton] at h2
  rw [h2]
  simp only [List.set_set, pair_slot, List.length_append, List.length_cons, List.length_nil]
  congr 1
  omega

/-- Storing at slot `j` of a list of slots. -/
theorem set_slot_eq (ps : List Fdata) (j : Nat) (x : Fdata) (hj : j < ps.length) :
    ps.set j x = ps.take j ++ x :: ps.drop (j + 1) := by
  rw [List.set_eq_take_append_cons_drop, if_pos hj]

/-- Slot `j` stored first and the slots behind it next, is the slots from `j` on
stored at once. -/
theorem splice_step (ps : List Fdata) (j m : Nat) (x : Fdata) (xs : List Fdata)
    (hj : j < ps.length) :
    (ps.set j x).take (j + 1) ++ xs ++ (ps.set j x).drop (j + 1 + m) =
      ps.take j ++ x :: xs ++ ps.drop (j + (m + 1)) := by
  have ht : (ps.take j).length = j := List.length_take_of_le (by omega)
  rw [set_slot_eq _ _ _ hj]
  have h1 : (ps.take j ++ x :: ps.drop (j + 1)).take (j + 1) = ps.take j ++ [x] := by
    rw [List.take_append_eq_append_take, ht, List.take_of_length_le (by omega)]
    have : j + 1 - j = 1 := by omega
    rw [this]
    rfl
  have h2 : (ps.take j ++ x :: ps.drop (j + 1)).drop (j + 1 + m) = ps.drop (j + (m + 1)) := by
    rw [List.drop_append_eq_append_drop, ht, List.drop_of_length_le (by omega)]
    have : j + 1 + m - j = m + 1 := by omega
    rw [this, List.nil_append, List.drop_succ_cons, List.drop_drop]
    congr 1
    omega
  rw [h1, h2]
  simp

/-- From slot `j` on and from the end of the prefix `A` on, `parse_query` stores the
pairs of `encode_query pairs` in the slots `j, j + 1, ...`. -/
theorem parse_query_from (MAXQ : Nat) :
    ∀ (pairs : List (List Nat × List Nat)), pairs ≠ [] →
    ∀ (A : List Nat) (j : Nat) (req : ReqData) (fuel : Nat),
      (∀ nv ∈ pairs, Plain nv.1 ∧ Plain nv.2) → j + pairs.length ≤ MAXQ →
      req.params.length = MAXQ →
      strlen (A ++ encode_query pairs) = (A ++ encode_query pairs).length →
      (encode_query pairs).length ≤ fuel →
      parse_query_finish (A ++ encode_query pairs)
          (parse_query_loop MAXQ (A ++ encode_query pairs) fuel A.length 0 j req) =
        .ok { req with params :=
                req.params.take j ++ pairs.map pair_slot ++ req.params.drop (j + pairs.length) }
  | [], h => absurd rfl h
  | [nv], _ => by
    intro A j req fuel hpl hj hlen hstr hfuel
    obtain ⟨hn, hv⟩ := hpl nv (List.mem_singleton_self nv)
    simp only [encode_query] at hstr hfuel ⊢
    simp only [List.length_singleton] at hj
    have hlt : j < req.params.length := by omega
    simp only [List.length_append, List.length_cons] at hfuel
    obtain ⟨f2, hf2⟩ : ∃ f2, fuel = (f2 + nv.2.length) + 1 + nv.1.length :=
      ⟨fuel - (nv.1.length + nv.2.length + 1), by omega⟩
    have e1 : A ++ (nv.1 ++ 61 :: nv.2) = A ++ nv.1 ++ 61 :: nv.2 := by simp
    have e2 : A ++ (nv.1 ++ 61 :: nv.2) = (A ++ nv.1 ++ [61]) ++ nv.2 ++ [] := by simp
    rw [hf2]
    have h1 := parse_query_loop_name MAXQ A nv.1 nv.2 (f2 + nv.2.length) j req
      (req.params[j]) hn (by omega) (List.getElem?_eq_getElem hlt) (by rw [← e1]; exact hstr)
    rw [← e1] at h1
    rw [h1]
    have h2 := parse_query_loop_run MAXQ nv.2 (A ++ nv.1 ++ [61]) [] f2 0 j
      { req with params := req.params.set j { req.params[j] with name := some (cstring nv.1) } }
      hv (by omega) (by rw [← e2]; exact hstr)
    rw [← e2] at h2
    simp only [List.length_append, List.length_singleton] at h2
    rw [h2, parse_query_loop_at_end _ _ _ _ _ _ _ (by rw [hstr]; simp; omega)]
    have h3 := copy_run_eq (A ++ nv.1 ++ [61]) nv.2 []
    rw [← e2] at h3
    simp only [List.length_append, List.length_singleton] at h3
    simp only [parse_query_finish, Nat.zero_add, h3, set_value, List.getElem?_set, hlt,
      if_true, List.set_set, List.map_cons, List.map_nil]
    rw [set_slot_eq _ _ _ hlt]
    simp [pair_slot]
  | nv :: nv2 :: rest, _ => by
    intro A j req fuel hpl hj hlen hstr hfuel
    obtain ⟨hn, hv⟩ := hpl nv (List.mem_cons_self _ _)
    have hpl2 : ∀ x ∈ nv2 :: rest, Plain x.1 ∧ Plain x.2 :=
      fun x hx => hpl x (List.mem_cons_of_mem _ hx)
    have henc : encode_query (nv :: nv2 :: rest)
        = nv.1 ++ 61 :: nv.2 ++ 38 :: encode_query (nv2 :: rest) := rfl
    rw [henc] at hstr hfuel ⊢
    simp only [List.length_cons] at hj
    have hlt : j < req.params.length := by omega
    simp only [List.length_append, List.length_cons] at hfuel
    obtain ⟨f2, hf2⟩ : ∃ f2, fuel = f2 + (nv.1.length + nv.2.length + 2) :=
      ⟨fuel - (nv.1.length + nv.2.length + 2), by omega⟩
    rw [hf2, parse_query_loop_pair MAXQ A nv.1 nv.2 _ f2 j req hn hv (by omega) hlen hstr]
    have e3 : A ++ (nv.1 ++ 61 :: nv.2 ++ 38 :: encode_query (nv2 :: rest))
        = (A ++ (nv.1 ++ 61 :: nv.2 ++ [38])) ++ encode_query (nv2 :: rest) := by simp
    rw [e3] at hstr ⊢
    rw [parse_query_from MAXQ (nv2 :: rest) (List.cons_ne_nil _ _)
      (A ++ (nv.1 ++ 61 :: nv.2 ++ [38])) (j + 1)
      { req with params := req.params.set j (pair_slot (nv.1, nv.2)) } f2 hpl2
      (by simp only [List.length_cons]; omega) (by simp [hlen]) hstr (by omega)]
    simp only [List.length_cons, List.map_cons]
    rw [splice_step _ _ _ _ _ hlt]

/-- The query string of plain pairs holds no NUL. -/
theorem encode_query_no_nul :
    ∀ (pairs : List (List Nat × List Nat)), (∀ nv ∈ pairs, Plain nv.1 ∧ Plain nv.2) →
      ∀ b ∈ encode_query pairs, b ≠ 0
  | [], _ => by simp [encode_query]
  | [nv], h => by
    intro b hb
    obtain ⟨hn, hv⟩ := h nv (List.mem_singleton_self nv)
    simp only [encode_query, List.mem_append, List.mem_cons] at hb
    rcases hb with hb | hb | hb
    · exact (hn b hb).2.2
    · omega
    · exact (hv b hb).2.2
  | nv :: nv2 :: rest, h => by
    intro b hb
    obtain ⟨hn, hv⟩ := h nv (List.mem_cons_self _ _)
    have ih := encode_query_no_nul (nv2 :: rest) (fun x hx => h x (List.mem_cons_of_mem _ hx))
    have henc : encode_query (nv :: nv2 :: rest)
        = nv.1 ++ 61 :: nv.2 ++ 38 :: encode_query (nv2 :: rest) := rfl
    rw [henc] at hb
    simp only [List.mem_append, List.mem_cons] at hb
    rcases hb with (hb | hb | hb) | hb | hb
    · exact (hn b hb).2.2
    · omega
    · exact (hv b hb).2.2
    · omega
    · exact ih b hb

/-- C5: for `1 ≤ k ≤ MAX_QUERY_PARAMS` pairs of strings without `'='`, `'&'` and NUL,
`parse_query` on `n_1=v_1&...&n_k=v_k` leaves slot `i - 1` holding the strings `n_i`
and `v_i`, in order of appearance, and leaves every other slot and the other fields
of the request as they were. -/
theorem parse_query_pairs (MAX_QUERY_PARAMS : Nat) (req : ReqData)
    (pairs : List (List Nat × List Nat))
    (hk1 : 1 ≤ pairs.length) (hk2 : pairs.length ≤ MAX_QUERY_PARAMS)
    (hreq : req.params.length = MAX_QUERY_PARAMS)
    (hplain : ∀ nv ∈ pairs, Plain nv.1 ∧ Plain nv.2) :
    parse_query MAX_QUERY_PARAMS req (encode_query pairs) =
      .ok { req with params := pairs.map pair_slot ++ req.params.drop pairs.length } := by
  have hne : pairs ≠ [] := by
    intro h; rw [h] at hk1; simp at hk1
  have hstr := strlen_eq_length _ (encode_query_no_nul pairs hplain)
  have h := parse_query_from MAX_QUERY_PARAMS pairs hne [] 0 req (strlen (encode_query pairs))
    hplain (by omega) hreq (by simpa using hstr) (by rw [hstr])
  simp only [List.nil_append, List.length_nil, List.take_zero, Nat.zero_add] at h
  exact h

/-- Witness for C5: "a=1&b=2&c=3" with five slots gives (a,1), (b,2), (c,3) in the
slots 0, 1, 2 and leaves the slots 3 and 4 unassigned. -/
theorem parse_query_pairs_witness :
    parse_query 5 (fresh_req 5) (bytes "a=1&b=2&c=3") =
      .ok { method := none, path := none,
            params := [pair_slot (bytes "a", bytes "1"), pair_slot (bytes "b", bytes "2"),
              pair_slot (bytes "c", bytes "3"), { name := none, value := none },
              { name := none, value := none }] } :=
  parse_query_pairs 5 (fresh_req 5)
    [(bytes "a", bytes "1"), (bytes "b", bytes "2"), (bytes "c", bytes "3")]
    (by decide) (by decide) (by decide) (by decide)

/-! ### strtok and the start line -/

theorem load_after (A R : Block) (b : Nat) : load (A ++ some b :: R) A.length = .ok b := by
  unfold load
  rw [List.getElem?_append_right (le_refl _)]
  simp

theorem strcspn_run (delim : List Nat) (d : Nat) (R : Block) (hd : d = 0 ∨ d ∈ delim) :
    ∀ xs : List Nat, Free delim xs →
      strcspn delim (xs.map some ++ some d :: R) = .ok xs.length := by
  intro xs
  induction xs with
  | nil =>
    intro _
    show strcspn delim (some d :: R) = .ok 0
    rw [strcspn, if_pos hd]
  | cons x xs ih =>
    intro h
    have hx := h x (List.mem_cons_self _ _)
    have h2 : Free delim xs := fun b hb => h b (List.mem_cons_of_mem _ hb)
    have hno : ¬ (x = 0 ∨ x ∈ delim) := by
      rintro (h0 | h1)
      · exact hx.1 h0
      · exact hx.2 h1
    show strcspn delim (some x :: (xs.map some ++ some d :: R)) = .ok (xs.length + 1)
    rw [strcspn, if_neg hno, ih h2]

theorem strspn_none (delim : List Nat) (b : Nat) (R : Block) (hb : b = 0 ∨ b ∉ delim) :
    strspn delim (some b :: R) = .ok 0 := by
  rw [strspn, if_neg]
  rintro ⟨h0, h1⟩
  rcases hb with h | h
  · exact h0 h
  · exact h h1

/-- `strtok` on a token `xs` that starts at the position handed over or kept, and
that is followed by a delimiter: the delimiter is overwritten by NUL. -/
theorem strtok_token_delim (delim : List Nat) (A R : Block) (xs : List Nat) (d : Nat)
    (save s : Option Nat) (hs : (match s with | some p => some p | none => save) = some A.length)
    (hxs : Free delim xs) (hne : xs ≠ []) (hd : d ∈ delim) (hd0 : d ≠ 0) :
    strtok (A ++ xs.map some ++ some d :: R) save s delim =
      .ok (some A.length, A ++ xs.map some ++ some 0 :: R, some (A.length + xs.length + 1)) := by
  obtain ⟨x, xs2, rfl⟩ := List.exists_cons_of_ne_nil hne
  have hx := hxs x (List.mem_cons_self _ _)
  unfold strtok
  rw [hs]
  simp only
  have hdrop : (A ++ (x :: xs2).map some ++ some d :: R).drop A.length
      = (x :: xs2).map some ++ some d :: R := by
    rw [List.append_assoc, List.drop_left' rfl]
  rw [hdrop]
  have hsp : strspn delim ((x :: xs2).map some ++ some d :: R) = .ok 0 := by
    simp only [List.map_cons, List.cons_append]
    exact strspn_none delim x _ (Or.inr hx.2)
  rw [hsp]
  simp only [Nat.add_zero]
  have hl : load (A ++ (x :: xs2).map some ++ some d :: R) A.length = .ok x := by
    have := load_after A (xs2.map some ++ some d :: R) x
    simpa using this
  rw [hl]
  simp only [if_neg hx.1, hdrop]
  rw [strcspn_run delim d R (Or.inr hd) (x :: xs2) hxs]
  simp only
  have hl2 : load (A ++ (x :: xs2).map some ++ some d :: R) (A.length + (x :: xs2).length)
      = .ok d := by
    have := load_after (A ++ (x :: xs2).map some) R d
    simpa using this
  rw [hl2]
  simp only [if_neg hd0]
  have hset : (A ++ (x :: xs2).map some ++ some d :: R).set (A.length + (x :: xs2).length) (some 0)
      = A ++ (x :: xs2).map some ++ some 0 :: R := by
    rw [List.set_append, if_neg (by simp)]
    simp
  rw [hset]

/-- `strtok` on a token `xs` that is followed by NUL: nothing is overwritten and
the kept position is that of the NUL. -/
theorem strtok_token_nul (delim : List Nat) (A R : Block) (xs : List Nat)
    (save s : Option Nat) (hs : (match s with | some p => some p | none => save) = some A.length)
    (hxs : Free delim xs) (hne : xs ≠ []) :
    strtok (A ++ xs.map some ++ some 0 :: R) save s delim =
      .ok (some A.length, A ++ xs.map some ++ some 0 :: R, some (A.length + xs.length)) := by
  obtain ⟨x, xs2, rfl⟩ := List.exists_cons_of_ne_nil hne
  have hx := hxs x (List.mem_cons_self _ _)
  unfold strtok
  rw [hs]
  simp only
  have hdrop : (A ++ (x :: xs2).map some ++ some 0 :: R).drop A.length
      = (x :: xs2).map some ++ some 0 :: R := by
    rw [List.append_assoc, List.drop_left' rfl]
  rw [hdrop]
  have hsp : strspn delim ((x :: xs2).map some ++ some 0 :: R) = .ok 0 := by
    simp only [List.map_cons, List.cons_append]
    exact strspn_none delim x _ (Or.inr hx.2)
  rw [hsp]
  simp only [Nat.add_zero]
  have hl : load (A ++ (x :: xs2).map some ++ some 0 :: R) A.length = .ok x := by
    have := load_after A (xs2.map some ++ some 0 :: R) x
    simpa using this
  rw [hl]
  simp only [if_neg hx.1, hdrop]
  rw [strcspn_run delim 0 R (Or.inl rfl) (x :: xs2) hxs]
  simp only
  have hl2 : load (A ++ (x :: xs2).map some ++ some 0 :: R) (A.length + (x :: xs2).length)
      = .ok 0 := by
    have := load_after (A ++ (x :: xs2).map some) R 0
    simpa using this
  rw [hl2]
  simp only [if_true]

/-- `strtok(NULL, delim)` when the kept position is at a NUL: there is no token. -/
theorem strtok_at_nul (delim : List Nat) (A R : Block) :
    strtok (A ++ some 0 :: R) (some A.length) none delim =
      .ok (none, A ++ some 0 :: R, some A.length) := by
  unfold strtok
  simp only
  rw [List.drop_left' rfl, strspn_none delim 0 R (Or.inl rfl)]
  simp only [Nat.add_zero, load_after, if_true]

/-- The string at the start of a token that ends in NUL. -/
theorem string_at_token (A R : Block) (xs : List Nat) (hxs : Free [] xs) :
    string_at (A ++ xs.map some ++ some 0 :: R) (some A.length) = .ok xs := by
  unfold string_at
  simp only
  rw [List.append_assoc, List.drop_left' rfl, strcspn_run [] 0 R (Or.inl rfl) xs hxs]
  simp only
  rw [List.take_left' (by simp)]
  simp [List.filterMap_map]

theorem free_no_nul (delim : List Nat) (xs : List Nat) (h : Free delim xs) : Free [] xs :=
  fun b hb => ⟨(h b hb).1, List.not_mem_nil b⟩

/-- `strcmp` of a literal against a token that ends in NUL. -/
theorem strcmp_eq_token (R : Block) :
    ∀ (lit xs : List Nat), Free [] lit → Free [] xs →
      strcmp_eq lit (xs.map some ++ some 0 :: R) = .ok (decide (lit = xs))
  | [], [], _, _ => by
    show strcmp_eq [] (some 0 :: R) = _
    rw [strcmp_eq]; simp
  | [], x :: xs, _, h => by
    have hx := (h x (List.mem_cons_self _ _)).1
    show strcmp_eq [] (some x :: (xs.map some ++ some 0 :: R)) = _
    rw [strcmp_eq]; simp [hx]
  | a :: lit, [], h, _ => by
    have ha := (h a (List.mem_cons_self _ _)).1
    show strcmp_eq (a :: lit) (some 0 :: R) = _
    rw [strcmp_eq, if_neg ha]; simp
  | a :: lit, x :: xs, h, h2 => by
    show strcmp_eq (a :: lit) (some x :: (xs.map some ++ some 0 :: R)) = _
    rw [strcmp_eq]
    by_cases hax : a = x
    · rw [if_pos hax, strcmp_eq_token R lit xs
        (fun b hb => h b (List.mem_cons_of_mem _ hb))
        (fun b hb => h2 b (List.mem_cons_of_mem _ hb))]
      simp [hax]
    · rw [if_neg hax]; simp [hax]

/-- The method branch on a token that ends in NUL. -/
theorem assign_method_token (req : ReqData) (A R : Block) (T : List Nat) (hT : Free [] T) :
    assign_method req (A ++ T.map some ++ some 0 :: R) (some A.length) = .ok (with_method req T) := by
  unfold assign_method with_method
  simp only
  have hdrop : (A ++ T.map some ++ some 0 :: R).drop A.length = T.map some ++ some 0 :: R := by
    rw [List.append_assoc, List.drop_left' rfl]
  rw [hdrop, strcmp_eq_token R GET T (by decide) hT, strcmp_eq_token R POST T (by decide) hT,
    string_at_token A R T hT]
  by_cases h1 : GET = T
  · simp [h1]
  · by_cases h2 : POST = T
    · simp [h1, h2]
    · have h1b : ¬ T = GET := fun h => h1 h.symm
      have h2b : ¬ T = POST := fun h => h2 h.symm
      simp [h1, h2, h1b, h2b]

/-- `parse_line` on `T SP P SP ...`: the method branch for `T`, the path `P`, and no
parameter. -/
theorem parse_line_plain (MAXQ : Nat) (T P : List Nat) (R : Block)
    (hT : Free [32] T) (hT0 : T ≠ []) (hP : Free [32] P) (hPq : Free [63] P) (hP0 : P ≠ []) :
    parse_line MAXQ (T.map some ++ some 32 :: (P.map some ++ some 32 :: R)) =
      .ok { with_method (fresh_req MAXQ) T with path := some (copy_unterminated P) } := by
  unfold parse_line
  have s1 := strtok_token_delim [32] [] (P.map some ++ some 32 :: R) T 32 none (some 0) rfl
    hT hT0 (by simp) (by decide)
  simp only [List.nil_append, List.length_nil, Nat.zero_add] at s1
  rw [s1]
  simp only
  have a1 := assign_method_token (fresh_req MAXQ) [] (P.map some ++ some 32 :: R) T
    (free_no_nul _ _ hT)
  simp only [List.nil_append, List.length_nil] at a1
  rw [a1]
  simp only
  have e1 : T.map some ++ some 0 :: (P.map some ++ some 32 :: R)
      = (T.map some ++ [some 0]) ++ P.map some ++ some 32 :: R := by simp
  have s2 := strtok_token_delim [32] (T.map some ++ [some 0]) R P 32 (some (T.length + 1)) none
    (by simp) hP hP0 (by simp) (by decide)
  rw [← e1] at s2
  rw [s2]
  simp only
  have s3 := strtok_token_nul [63] (T.map some ++ [some 0]) R P
    (some ((T.map some ++ [some 0]).length + P.length + 1))
    (some (T.map some ++ [some 0]).length) rfl hPq hP0
  rw [s3]
  simp only
  rw [string_at_token _ R P (free_no_nul _ _ hP)]
  simp only
  have s4 := strtok_at_nul [63] ((T.map some ++ [some 0]) ++ P.map some) R
  simp only [List.length_append, List.length_map] at s4 ⊢
  rw [s4]

/-- `parse_line` on `T SP P ? Q SP ...`: the method branch for `T`, the path `P`, and
the parameters that `parse_query` reads from `Q`. -/
theorem parse_line_query (MAXQ : Nat) (T P Q : List Nat) (R : Block)
    (hT : Free [32] T) (hT0 : T ≠ []) (hP : Free [32] P) (hPq : Free [63] P) (hP0 : P ≠ [])
    (hQ : Free [32] Q) (hQq : Free [63] Q) (hQ0 : Q ≠ []) :
    parse_line MAXQ
        (T.map some ++ some 32 :: (P.map some ++ some 63 :: (Q.map some ++ some 32 :: R))) =
      parse_query MAXQ
        { with_method (fresh_req MAXQ) T with path := some (copy_unterminated P) } Q := by
  unfold parse_line
  have s1 := strtok_token_delim [32] [] (P.map some ++ some 63 :: (Q.map some ++ some 32 :: R))
    T 32 none (some 0) rfl hT hT0 (by simp) (by decide)
  simp only [List.nil_append, List.length_nil, Nat.zero_add] at s1
  rw [s1]
  simp only
  have a1 := assign_method_token (fresh_req MAXQ) []
    (P.map some ++ some 63 :: (Q.map some ++ some 32 :: R)) T (free_no_nul _ _ hT)
  simp only [List.nil_append, List.length_nil] at a1
  rw [a1]
  simp only
  have hPQ : Free [32] (P ++ 63 :: Q) := by
    intro b hb
    simp only [List.mem_append, List.mem_cons] at hb
    rcases hb with hb | hb | hb
    · exact hP b hb
    · subst hb; simp
    · exact hQ b hb
  have e1 : T.map some ++ some 0 :: (P.map some ++ some 63 :: (Q.map some ++ some 32 :: R))
      = (T.map some ++ [some 0]) ++ (P ++ 63 :: Q).map some ++ some 32 :: R := by simp
  have s2 := strtok_token_delim [32] (T.map some ++ [some 0]) R (P ++ 63 :: Q) 32
    (some (T.length + 1)) none (by simp) hPQ (by simp) (by simp) (by decide)
  rw [← e1] at s2
  rw [s2]
  simp only
  have e2 : (T.map some ++ [some 0]) ++ (P ++ 63 :: Q).map some ++ some 0 :: R
      = (T.map some ++ [some 0]) ++ P.map some ++ some 63 :: (Q.map some ++ some 0 :: R) := by
    simp
  have s3 := strtok_token_delim [63] (T.map some ++ [some 0]) (Q.map some ++ some 0 :: R) P 63
    (some ((T.map some ++ [some 0]).length + (P ++ 63 :: Q).length + 1))
    (some (T.map some ++ [some 0]).length) rfl hPq hP0 (by simp) (by decide)
  rw [← e2] at s3
  rw [s3]
  simp only
  rw [string_at_token _ _ P (free_no_nul _ _ hP)]
  simp only
  have e3 : (T.map some ++ [some 0]) ++ P.map some ++ some 0 :: (Q.map some ++ some 0 :: R)
      = ((T.map some ++ [some 0]) ++ P.map some ++ [some 0]) ++ Q.map some ++ some 0 :: R := by
    simp
  have s4 := strtok_token_nul [63] ((T.map some ++ [some 0]) ++ P.map some ++ [some 0]) R Q
    (some ((T.map some ++ [some 0]).length + P.length + 1)) none (by simp; omega) hQq hQ0
  rw [← e3] at s4
  rw [s4]
  simp only
  have s5 := string_at_token ((T.map some ++ [some 0]) ++ P.map some ++ [some 0]) R Q
    (free_no_nul _ _ hQ)
  rw [← e3] at s5
  rw [s5]

/-- A positive result of `find_network_newline` is at least 2 and at most `inbuf`. -/
theorem find_network_newline_bounds (buf : List Nat) (inbuf : Int)
    (h : 0 < find_network_newline buf inbuf) :
    2 ≤ find_network_newline buf inbuf ∧ find_network_newline buf inbuf ≤ inbuf := by
  rcases find_network_newline_cases buf inbuf with ⟨k, hk1, _, _, hk4⟩ | ⟨_, hr⟩
  · rw [hk4]; omega
  · rw [hr] at h; omega

theorem free_of_free2 (a b : Nat) (xs : List Nat) (h : Free [a, b] xs) :
    Free [a] xs ∧ Free [b] xs := by
  constructor
  · intro x hx
    have := h x hx
    refine ⟨this.1, ?_⟩
    intro hm
    apply this.2
    simp only [List.mem_singleton] at hm
    simp [hm]
  · intro x hx
    have := h x hx
    refine ⟨this.1, ?_⟩
    intro hm
    apply this.2
    simp only [List.mem_singleton] at hm
    simp [hm]

/-- `parse_line` on the copy of a start line with well-shaped tokens. -/
theorem parse_line_start_line (MAXQ : Nat) (T P : List Nat) (Q : Option (List Nat))
    (W : List Nat) (U : Block) (h : Tokens T P Q) :
    parse_line MAXQ ((start_line T P Q W).map some ++ U) = request_of_tokens MAXQ T P Q := by
  obtain ⟨hT, hT0, hP, hP0, hQ⟩ := h
  obtain ⟨hP1, hP2⟩ := free_of_free2 _ _ _ hP
  cases Q with
  | none =>
    have e : (start_line T P none W).map some ++ U
        = T.map some ++ some 32 :: (P.map some ++ some 32 :: (W.map some ++ U)) := by
      simp [start_line, target_of]
    rw [e, parse_line_plain MAXQ T P _ hT hT0 hP1 hP2 hP0]
    rfl
  | some q =>
    obtain ⟨hq, hq0⟩ := hQ
    obtain ⟨hq1, hq2⟩ := free_of_free2 _ _ _ hq
    have e : (start_line T P (some q) W).map some ++ U
        = T.map some ++ some 32 :: (P.map some ++ some 63 ::
            (q.map some ++ some 32 :: (W.map some ++ U))) := by
      simp [start_line, target_of]
    rw [e, parse_line_query MAXQ T P q _ hT hT0 hP1 hP2 hP0 hq1 hq2 hq0]
    rfl

/-- Without a framed line `parse_req_start_line` returns 0 and changes nothing. -/
theorem parse_req_start_line_incomplete (MAXLINE MAXQ : Nat) (mem : Nat → Nat)
    (c : ClientState) (hw : ¬ 0 < find_network_newline c.buf c.num_bytes) :
    parse_req_start_line MAXLINE MAXQ mem c = .ok (0, c) := by
  unfold parse_req_start_line
  simp only [gt_iff_lt, hw, if_false]

/-- With a framed line, `parse_req_start_line` is `parse_line` on the copy of the
line, followed by the removal of the line. -/
theorem parse_req_start_line_framed (MAXLINE MAXQ : Nat) (mem : Nat → Nat) (c : ClientState)
    (hlen : c.buf.length = MAXLINE) (hnb : c.num_bytes ≤ (MAXLINE : Int))
    (hw : 0 < find_network_newline c.buf c.num_bytes) :
    parse_req_start_line MAXLINE MAXQ mem c =
      match parse_line MAXQ
          ((c.buf.take (find_network_newline c.buf c.num_bytes).toNat).map some ++
            List.replicate (MAXLINE - (find_network_newline c.buf c.num_bytes).toNat) none) with
      | .error f => .error f
      | .ok req => .ok (1, after_line MAXLINE mem c req) := by
  have hb := find_network_newline_bounds _ _ hw
  unfold parse_req_start_line copy_line
  simp only [gt_iff_lt, hw, if_true]
  rw [if_pos (by constructor <;> omega)]
  simp only
  cases hp : parse_line MAXQ
      ((c.buf.take (find_network_newline c.buf c.num_bytes).toNat).map some ++
        List.replicate (MAXLINE - (find_network_newline c.buf c.num_bytes).toNat) none) with
  | error f => rfl
  | ok req =>
    simp only
    rw [remove_buffered_line_found MAXLINE mem { c with reqData := some req } hlen hnb hw]
    rfl

/-- On a client whose first framed line is a start line with well-shaped tokens,
`parse_req_start_line` returns 1 with the request built from the tokens, unless
`parse_query` faults on the query. -/
theorem parse_req_start_line_tokens (MAXLINE MAXQ : Nat) (mem : Nat → Nat) (c : ClientState)
    (T P : List Nat) (Q : Option (List Nat)) (W : List Nat)
    (hwf : c.WellFormed MAXLINE) (htok : Tokens T P Q)
    (hwh : find_network_newline c.buf c.num_bytes = ((start_line T P Q W).length : Nat))
    (hbuf : c.buf.take (start_line T P Q W).length = start_line T P Q W) :
    parse_req_start_line MAXLINE MAXQ mem c =
      match request_of_tokens MAXQ T P Q with
      | .error f => .error f
      | .ok req => .ok (1, after_line MAXLINE mem c req) := by
  obtain ⟨hlen, _, hnb⟩ := hwf
  have hpos : 0 < find_network_newline c.buf c.num_bytes := by
    rw [hwh]
    have : 0 < (start_line T P Q W).length := by simp [start_line]
    omega
  rw [parse_req_start_line_framed MAXLINE MAXQ mem c hlen (by omega) hpos, hwh]
  simp only [Int.toNat_ofNat, hbuf]
  rw [parse_line_start_line MAXQ T P Q W _ htok]

/-- `set_name` touches neither the method nor the path. -/
theorem set_name_keeps (req r : ReqData) (num : Nat) (p : Block)
    (h : set_name req num p = .ok r) : r.method = req.method ∧ r.path = req.path := by
  unfold set_name at h
  cases hs : req.params[num]? with
  | none => rw [hs] at h; cases h
  | some f =>
    rw [hs] at h
    simp only [Except.ok.injEq] at h
    subst h
    exact ⟨rfl, rfl⟩

/-- `set_value` touches neither the method nor the path. -/
theorem set_value_keeps (req r : ReqData) (num : Nat) (p : Block)
    (h : set_value req num p = .ok r) : r.method = req.method ∧ r.path = req.path := by
  unfold set_value at h
  cases hs : req.params[num]? with
  | none => rw [hs] at h; cases h
  | some f =>
    rw [hs] at h
    simp only [Except.ok.injEq] at h
    subst h
    exact ⟨rfl, rfl⟩

/-- The loop of `parse_query` touches neither the method nor the path. -/
theorem parse_query_loop_keeps (MAXQ : Nat) (str : List Nat) :
    ∀ (fuel i len num : Nat) (req : ReqData) (out : Nat × Nat × Nat × ReqData),
      parse_query_loop MAXQ str fuel i len num req = .ok out →
      out.2.2.2.method = req.method ∧ out.2.2.2.path = req.path := by
  intro fuel
  induction fuel with
  | zero =>
    intro i len num req out h
    simp only [parse_query_loop, Except.ok.injEq] at h
    subst h
    exact ⟨rfl, rfl⟩
  | succ fuel ih =>
    intro i len num req out h
    unfold parse_query_loop at h
    split at h
    · split at h
      · cases hc : copy_run str i len with
        | error f => rw [hc] at h; cases h
        | ok p =>
          rw [hc] at h
          simp only at h
          cases hs : set_name req num p with
          | error f => rw [hs] at h; cases h
          | ok req1 =>
            rw [hs] at h
            have hk := set_name_keeps _ _ _ _ hs
            simp only at h
            split at h
            · simp only [Except.ok.injEq] at h
              subst h
              exact hk
            · have := ih _ _ _ _ _ h
              exact ⟨this.1.trans hk.1, this.2.trans hk.2⟩
      · split at h
        · cases hc : copy_run str i len with
          | error f => rw [hc] at h; cases h
          | ok p =>
            rw [hc] at h
            simp only at h
            cases hs : set_value req num p with
            | error f => rw [hs] at h; cases h
            | ok req1 =>
              rw [hs] at h
              have hk := set_value_keeps _ _ _ _ hs
              simp only at h
              split at h
              · simp only [Except.ok.injEq] at h
                subst h
                exact hk
              · have := ih _ _ _ _ _ h
                exact ⟨this.1.trans hk.1, this.2.trans hk.2⟩
        · split at h
          · simp only [Except.ok.injEq] at h
            subst h
            exact ⟨rfl, rfl⟩
          · exact ih _ _ _ _ _ h
    · simp only [Except.ok.injEq] at h
      subst h
      exact ⟨rfl, rfl⟩

/-- `parse_query` touches neither the method nor the path. -/
theorem parse_query_keeps (MAXQ : Nat) (req r : ReqData) (str : List Nat)
    (h : parse_query MAXQ req str = .ok r) : r.method = req.method ∧ r.path = req.path := by
  unfold parse_query at h
  cases hl : parse_query_loop MAXQ str (strlen str) 0 0 0 req with
  | error f => rw [hl] at h; cases h
  | ok out =>
    obtain ⟨i, len, num, req1⟩ := out
    rw [hl] at h
    have hk := parse_query_loop_keeps MAXQ str _ _ _ _ _ _ hl
    simp only [parse_query_finish] at h
    cases hc : copy_run str i len with
    | error f => rw [hc] at h; cases h
    | ok p =>
      rw [hc] at h
      have := set_value_keeps _ _ _ _ h
      exact ⟨this.1.trans hk.1, this.2.trans hk.2⟩

/-- The method and the path of the request built from tokens. -/
theorem request_of_tokens_fields (MAXQ : Nat) (T P : List Nat) (Q : Option (List Nat))
    (req : ReqData) (h : request_of_tokens MAXQ T P Q = .ok req) :
    req.method = (with_method (fresh_req MAXQ) T).method ∧
      req.path = some (copy_unterminated P) := by
  cases Q with
  | none =>
    simp only [request_of_tokens, Except.ok.injEq] at h
    subst h
    exact ⟨rfl, rfl⟩
  | some q =>
    simp only [request_of_tokens] at h
    exact parse_query_keeps MAXQ _ _ _ h

/-- A block filled by `copy_unterminated` holds no C string: its last byte was
never written. -/
theorem block_string_copy_unterminated :
    ∀ s : List Nat, (∀ b ∈ s, b ≠ 0) → block_string (copy_unterminated s) = none
  | [], _ => rfl
  | b :: s, h => by
    have hb := h b (List.mem_cons_self _ _)
    have ih := block_string_copy_unterminated s (fun x hx => h x (List.mem_cons_of_mem _ hx))
    unfold copy_unterminated at ih ⊢
    show block_string (some b :: (s.map some ++ [none])) = none
    rw [block_string, if_neg hb, ih]

/-! ### Claims on parse_query and parse_req_start_line -/

/-- C6 (the code at the failing input): with five slots, "a=1&b=2&c=3&d=4&e=5&f=6"
makes `parse_query` leave its loop through `break` with `num = 5` and then store
the value of slot 5, which is outside `params[0..5)`; so does a query of five
pairs that ends in `'&'`.  Five pairs without a trailing `'&'` fit. -/
theorem parse_query_overflow_example :
    parse_query 5 (fresh_req 5) (bytes "a=1&b=2&c=3&d=4&e=5&f=6") = .error (.paramsOverflow 5) ∧
    parse_query 5 (fresh_req 5) (bytes "a=1&b=2&c=3&d=4&e=5&") = .error (.paramsOverflow 5) ∧
    (∃ req, parse_query 5 (fresh_req 5) (bytes "a=1&b=2&c=3&d=4&e=5") = .ok req) := by
  refine ⟨by decide, by decide, ⟨_, rfl⟩⟩

/-- C7 (the code at the failing input): on "GET /index?x=1 HTTP/1.1\r\n" the call
returns 1 and the parameters are [(x,1)], but the blocks of `method` and `path` hold
the bytes of "GET" and "/index" followed by a byte that is never written: neither
holds a C string, unlike the blocks that `parse_query` fills.  The same happens to
`method` and `path` on "POST /upload HTTP/1.1\r\n". -/
theorem parse_req_start_line_get_example :
    (∃ c req,
      parse_req_start_line 32 5 (fun _ => 0)
        (client_holding 32 (bytes "GET /index?x=1 HTTP/1.1\r\n")) = .ok (1, c) ∧
      c.reqData = some req ∧
      req.method = some ((bytes "GET").map some ++ [none]) ∧
      req.path = some ((bytes "/index").map some ++ [none]) ∧
      req.params.take 1 = [pair_slot (bytes "x", bytes "1")] ∧
      block_string ((bytes "GET").map some ++ [none]) = none ∧
      block_string ((bytes "/index").map some ++ [none]) = none ∧
      block_string (cstring (bytes "x")) = some (bytes "x")) ∧
    (∃ c req,
      parse_req_start_line 32 5 (fun _ => 0)
        (client_holding 32 (bytes "POST /upload HTTP/1.1\r\n")) = .ok (1, c) ∧
      c.reqData = some req ∧
      req.method = some ((bytes "POST").map some ++ [none]) ∧
      req.path = some ((bytes "/upload").map some ++ [none]) ∧
      req.params = (fresh_req 5).params ∧
      block_string ((bytes "POST").map some ++ [none]) = none ∧
      block_string ((bytes "/upload").map some ++ [none]) = none) := by
  constructor
  · refine ⟨_, _, rfl, rfl, ?_, ?_, ?_, ?_, ?_, ?_⟩ <;> decide
  · refine ⟨_, _, rfl, rfl, ?_, ?_, ?_, ?_, ?_⟩ <;> decide

/-- C9 (the code at the failing input): the buffer "GET\0\r\n" holds a CR LF pair,
but the call does not return 1: the framed line has no second token, `strtok`
returns `NULL` for the target and for the path, and `strlen(path)` dereferences
`NULL`. -/
theorem parse_req_start_line_no_target_example (mem : Nat → Nat) :
    0 < find_network_newline (client_holding 32 [71, 69, 84, 0, 13, 10]).buf
          (client_holding 32 [71, 69, 84, 0, 13, 10]).num_bytes ∧
    parse_req_start_line 32 5 mem (client_holding 32 [71, 69, 84, 0, 13, 10])
      = .error .nullDeref := by
  exact ⟨by decide, rfl⟩

/-- The stores on a line with another method: on a client whose first framed line is
`T SP P SP ...` or `T SP P ? Q SP ...`, with `T`, `P`, `Q` non-empty and free of
space, `'?'` and NUL, and with `T` neither GET nor POST, the call reaches
`log_request` with the request `req` built (when `parse_query` returns) and with
`req.method` never assigned. -/
theorem other_method_unassigned (MAXLINE MAX_QUERY_PARAMS : Nat) (mem : Nat → Nat)
    (c : ClientState) (T P : List Nat) (Q : Option (List Nat)) (W : List Nat) (req : ReqData)
    (hwf : c.WellFormed MAXLINE) (htok : Tokens T P Q)
    (hwh : find_network_newline c.buf c.num_bytes = ((start_line T P Q W).length : Nat))
    (hbuf : c.buf.take (start_line T P Q W).length = start_line T P Q W)
    (hT : T ≠ GET ∧ T ≠ POST)
    (hreq : request_of_tokens MAX_QUERY_PARAMS T P Q = .ok req) :
    parse_req_start_line MAXLINE MAX_QUERY_PARAMS mem c
        = .ok (1, after_line MAXLINE mem c req) ∧
      (after_line MAXLINE mem c req).reqData = some req ∧ req.method = none := by
  refine ⟨?_, rfl, ?_⟩
  · rw [parse_req_start_line_tokens MAXLINE MAX_QUERY_PARAMS mem c T P Q W hwf htok hwh hbuf,
      hreq]
  · rw [(request_of_tokens_fields MAX_QUERY_PARAMS T P Q req hreq).1]
    unfold with_method
    rw [if_neg (by rintro (h | h); exact hT.1 h; exact hT.2 h)]
    rfl

/-! ### No call stores outside the buffer -/

theorem load_fault (m : Block) (p : Nat) (e : Fault) (h : load m p = .error e) :
    e ≠ .bufferOverflow := by
  unfold load at h
  split at h <;> cases h <;> decide

theorem strspn_fault (delim : List Nat) :
    ∀ (l : Block) (e : Fault), strspn delim l = .error e → e ≠ .bufferOverflow
  | [], e, h => by rw [strspn] at h; cases h; decide
  | none :: _, e, h => by rw [strspn] at h; cases h; decide
  | some b :: rest, e, h => by
    rw [strspn] at h
    split at h
    · cases hr : strspn delim rest with
      | ok k => rw [hr] at h; cases h
      | error f =>
        rw [hr] at h
        cases h
        exact strspn_fault delim rest _ hr
    · cases h

theorem strcspn_fault (delim : List Nat) :
    ∀ (l : Block) (e : Fault), strcspn delim l = .error e → e ≠ .bufferOverflow
  | [], e, h => by rw [strcspn] at h; cases h; decide
  | none :: _, e, h => by rw [strcspn] at h; cases h; decide
  | some b :: rest, e, h => by
    rw [strcspn] at h
    split at h
    · cases h
    · cases hr : strcspn delim rest with
      | ok k => rw [hr] at h; cases h
      | error f =>
        rw [hr] at h
        cases h
        exact strcspn_fault delim rest _ hr

theorem string_at_fault (m : Block) (s : Option Nat) (e : Fault)
    (h : string_at m s = .error e) : e ≠ .bufferOverflow := by
  unfold string_at at h
  cases s with
  | none => cases h; decide
  | some p =>
    simp only at h
    cases hr : strcspn [] (m.drop p) with
    | ok k => rw [hr] at h; cases h
    | error f =>
      rw [hr] at h
      cases h
      exact strcspn_fault _ _ _ hr

theorem strcmp_eq_fault :
    ∀ (lit : List Nat) (l : Block) (e : Fault), strcmp_eq lit l = .error e → e ≠ .bufferOverflow
  | [], [], e, h => by rw [strcmp_eq] at h; cases h; decide
  | _ :: _, [], e, h => by rw [strcmp_eq] at h; cases h; decide
  | [], none :: _, e, h => by rw [strcmp_eq] at h; cases h; decide
  | _ :: _, none :: _, e, h => by rw [strcmp_eq] at h; cases h; decide
  | [], some b :: _, e, h => by rw [strcmp_eq] at h; cases h
  | a :: lit, some b :: rest, e, h => by
    rw [strcmp_eq] at h
    split at h
    · exact strcmp_eq_fault lit rest e h
    · cases h

theorem strtok_fault (m : Block) (save s : Option Nat) (delim : List Nat) (e : Fault)
    (h : strtok m save s delim = .error e) : e ≠ .bufferOverflow := by
  unfold strtok at h
  split at h
  · cases h; decide
  · rename_i p0 _
    cases h1 : strspn delim (m.drop p0) with
    | error f => rw [h1] at h; cases h; exact strspn_fault _ _ _ h1
    | ok k =>
      rw [h1] at h
      simp only at h
      cases h2 : load m (p0 + k) with
      | error f => rw [h2] at h; cases h; exact load_fault _ _ _ h2
      | ok b =>
        rw [h2] at h
        simp only at h
        split at h
        · cases h
        · cases h3 : strcspn delim (m.drop (p0 + k)) with
          | error f => rw [h3] at h; cases h; exact strcspn_fault _ _ _ h3
          | ok n =>
            rw [h3] at h
            simp only at h
            cases h4 : load m (p0 + k + n) with
            | error f => rw [h4] at h; cases h; exact load_fault _ _ _ h4
            | ok b2 =>
              rw [h4] at h
              simp only at h
              split at h <;> cases h

theorem assign_method_fault (req : ReqData) (m : Block) (token : Option Nat) (e : Fault)
    (h : assign_method req m token = .error e) : e ≠ .bufferOverflow := by
  unfold assign_method at h
  cases token with
  | none => cases h; decide
  | some p =>
    simp only at h
    cases h1 : strcmp_eq GET (m.drop p) with
    | error f => rw [h1] at h; cases h; exact strcmp_eq_fault _ _ _ h1
    | ok b =>
      rw [h1] at h
      cases b with
      | true =>
        simp only at h
        cases h2 : string_at m (some p) with
        | error f => rw [h2] at h; cases h; exact string_at_fault _ _ _ h2
        | ok s => rw [h2] at h; cases h
      | false =>
        simp only at h
        cases h3 : strcmp_eq POST (m.drop p) with
        | error f => rw [h3] at h; cases h; exact strcmp_eq_fault _ _ _ h3
        | ok b2 =>
          rw [h3] at h
          cases b2 with
          | true =>
            simp only at h
            cases h2 : string_at m (some p) with
            | error f => rw [h2] at h; cases h; exact string_at_fault _ _ _ h2
            | ok s => rw [h2] at h; cases h
          | false => cases h

theorem copy_run_fault (str : List Nat) (i len : Nat) (e : Fault)
    (h : copy_run str i len = .error e) : e ≠ .bufferOverflow := by
  unfold copy_run at h
  split at h <;> cases h
  decide

theorem set_name_fault (req : ReqData) (num : Nat) (p : Block) (e : Fault)
    (h : set_name req num p = .error e) : e ≠ .bufferOverflow := by
  unfold set_name at h
  split at h <;> cases h
  simp

theorem set_value_fault (req : ReqData) (num : Nat) (p : Block) (e : Fault)
    (h : set_value req num p = .error e) : e ≠ .bufferOverflow := by
  unfold set_value at h
  split at h <;> cases h
  simp

theorem parse_query_loop_fault (MAXQ : Nat) (str : List Nat) :
    ∀ (fuel i len num : Nat) (req : ReqData) (e : Fault),
      parse_query_loop MAXQ str fuel i len num req = .error e → e ≠ .bufferOverflow := by
  intro fuel
  induction fuel with
  | zero => intro i len num req e h; simp only [parse_query_loop] at h; cases h
  | succ fuel ih =>
    intro i len num req e h
    unfold parse_query_loop at h
    split at h
    · split at h
      · cases hc : copy_run str i len with
        | error f => rw [hc] at h; cases h; exact copy_run_fault _ _ _ _ hc
        | ok p =>
          rw [hc] at h
          simp only at h
          cases hs : set_name req num p with
          | error f => rw [hs] at h; cases h; exact set_name_fault _ _ _ _ hs
          | ok req1 =>
            rw [hs] at h
            simp only at h
            split at h
            · cases h
            · exact ih _ _ _ _ _ h
      · split at h
        · cases hc : copy_run str i len with
          | error f => rw [hc] at h; cases h; exact copy_run_fault _ _ _ _ hc
          | ok p =>
            rw [hc] at h
            simp only at h
            cases hs : set_value req num p with
            | error f => rw [hs] at h; cases h; exact set_value_fault _ _ _ _ hs
            | ok req1 =>
              rw [hs] at h
              simp only at h
              split at h
              · cases h
              · exact ih _ _ _ _ _ h
        · split at h
          · cases h
          · exact ih _ _ _ _ _ h
    · cases h

theorem parse_query_fault (MAXQ : Nat) (req : ReqData) (str : List Nat) (e : Fault)
    (h : parse_query MAXQ req str = .error e) : e ≠ .bufferOverflow := by
  unfold parse_query at h
  cases hl : parse_query_loop MAXQ str (strlen str) 0 0 0 req with
  | error f =>
    rw [hl] at h
    simp only [parse_query_finish] at h
    cases h
    exact parse_query_loop_fault _ _ _ _ _ _ _ _ hl
  | ok out =>
    obtain ⟨i, len, num, req1⟩ := out
    rw [hl] at h
    simp only [parse_query_finish] at h
    cases hc : copy_run str i len with
    | error f => rw [hc] at h; cases h; exact copy_run_fault _ _ _ _ hc
    | ok p =>
      rw [hc] at h
      exact set_value_fault _ _ _ _ h

theorem parse_line_fault (MAXQ : Nat) (m : Block) (e : Fault)
    (h : parse_line MAXQ m = .error e) : e ≠ .bufferOverflow := by
  unfold parse_line at h
  cases h1 : strtok m none (some 0) [32] with
  | error f => rw [h1] at h; cases h; exact strtok_fault _ _ _ _ _ h1
  | ok r1 =>
    obtain ⟨token, m1, save1⟩ := r1
    rw [h1] at h
    simp only at h
    cases h2 : assign_method (fresh_req MAXQ) m1 token with
    | error f => rw [h2] at h; cases h; exact assign_method_fault _ _ _ _ h2
    | ok req1 =>
      rw [h2] at h
      simp only at h
      cases h3 : strtok m1 save1 none [32] with
      | error f => rw [h3] at h; cases h; exact strtok_fault _ _ _ _ _ h3
      | ok r3 =>
        obtain ⟨target, m2, save2⟩ := r3
        rw [h3] at h
        simp only at h
        cases h4 : strtok m2 save2 target [63] with
        | error f => rw [h4] at h; cases h; exact strtok_fault _ _ _ _ _ h4
        | ok r4 =>
          obtain ⟨path, m3, save3⟩ := r4
          rw [h4] at h
          simp only at h
          cases h5 : string_at m3 path with
          | error f => rw [h5] at h; cases h; exact string_at_fault _ _ _ h5
          | ok ps =>
            rw [h5] at h
            simp only at h
            cases h6 : strtok m3 save3 none [63] with
            | error f => rw [h6] at h; cases h; exact strtok_fault _ _ _ _ _ h6
            | ok r6 =>
              obtain ⟨params, m4, save4⟩ := r6
              rw [h6] at h
              simp only at h
              cases params with
              | none => cases h
              | some q =>
                simp only at h
                cases h7 : string_at m4 (some q) with
                | error f => rw [h7] at h; cases h; exact string_at_fault _ _ _ h7
                | ok qs =>
                  rw [h7] at h
                  exact parse_query_fault _ _ _ _ h

/-- A read sees at most `count` of the pending bytes. -/
theorem read_from_client_pending (MAXLINE : Nat) (pending : List Nat) (c : ClientState) :
    read_from_client MAXLINE (.data pending) c =
      read_from_client MAXLINE
        (.data (pending.take (size_t_of_int ((MAXLINE : Int) - c.num_bytes - 1)))) c := by
  unfold read_from_client sys_read
  simp only [List.take_take, Nat.min_self]

/-- A read keeps a well-formed client well-formed, whatever the socket has. -/
theorem read_from_client_wf (MAXLINE : Nat) (r : ReadResult) (c : ClientState)
    (hwf : c.WellFormed MAXLINE) :
    ∃ ret c1, read_from_client MAXLINE r c = .ok (ret, c1) ∧ c1.WellFormed MAXLINE := by
  have hwf0 := hwf
  obtain ⟨hlen, hnb0, hnb1⟩ := hwf
  have hroom : size_t_of_int ((MAXLINE : Int) - c.num_bytes - 1)
      = ((MAXLINE : Int) - c.num_bytes - 1).toNat := by
    unfold size_t_of_int
    rw [if_neg (by omega)]
  cases r with
  | failed =>
    refine ⟨-1, c, ?_, hwf0⟩
    unfold read_from_client sys_read store_bytes
    simp
  | data pending =>
    rw [read_from_client_pending, hroom]
    by_cases hd : pending.take ((MAXLINE : Int) - c.num_bytes - 1).toNat = []
    · rw [hd]
      refine ⟨-1, c, ?_, hwf0⟩
      unfold read_from_client sys_read store_bytes
      simp
    · have hlen1 : 1 ≤ (pending.take ((MAXLINE : Int) - c.num_bytes - 1).toNat).length := by
        rcases hp : pending.take ((MAXLINE : Int) - c.num_bytes - 1).toNat with _ | ⟨x, xs⟩
        · exact absurd hp hd
        · simp
      have hlen2 : ((pending.take ((MAXLINE : Int) - c.num_bytes - 1).toNat).length : Int)
          ≤ (MAXLINE : Int) - c.num_bytes - 1 := by
        have := List.length_take_le ((MAXLINE : Int) - c.num_bytes - 1).toNat pending
        omega
      refine ⟨_, _, read_from_client_delivers MAXLINE c _ hwf0 hlen1 hlen2, ?_⟩
      refine ⟨?_, ?_, ?_⟩
      · simp only
        rw [(buf_after_read_parts c.buf c.num_bytes.toNat _ (by omega)).2.2.2.1, hlen]
      · simp only; omega
      · simp only; omega

/-- A line removal keeps a well-formed client well-formed. -/
theorem remove_buffered_line_wf (MAXLINE : Nat) (mem : Nat → Nat) (c : ClientState)
    (hwf : c.WellFormed MAXLINE) :
    ∃ c1, remove_buffered_line MAXLINE mem c = .ok c1 ∧ c1.WellFormed MAXLINE ∧
      c1.reqData = c.reqData := by
  have hwf0 := hwf
  obtain ⟨hlen, hnb0, hnb1⟩ := hwf
  by_cases hw : 0 < find_network_newline c.buf c.num_bytes
  · have hb := find_network_newline_bounds _ _ hw
    refine ⟨_, remove_buffered_line_found MAXLINE mem c hlen (by omega) hw, ⟨?_, ?_, ?_⟩, rfl⟩
    · simp only [List.length_append, List.length_map, List.length_range, List.length_drop]
      omega
    · simp only; omega
    · simp only; omega
  · exact ⟨c, remove_buffered_line_not_found MAXLINE mem c hw, hwf0, rfl⟩

/-- A start-line parse keeps a well-formed client well-formed when it returns, and
when it faults, the fault is not a store outside the buffer. -/
theorem parse_req_start_line_wf (MAXLINE MAXQ : Nat) (mem : Nat → Nat) (c : ClientState)
    (hwf : c.WellFormed MAXLINE) :
    match parse_req_start_line MAXLINE MAXQ mem c with
    | .ok (_, c1) => c1.WellFormed MAXLINE
    | .error f => f ≠ .bufferOverflow := by
  have hwf0 := hwf
  obtain ⟨hlen, hnb0, hnb1⟩ := hwf
  by_cases hw : 0 < find_network_newline c.buf c.num_bytes
  · have hb := find_network_newline_bounds _ _ hw
    rw [parse_req_start_line_framed MAXLINE MAXQ mem c hlen (by omega) hw]
    cases hp : parse_line MAXQ
        ((c.buf.take (find_network_newline c.buf c.num_bytes).toNat).map some ++
          List.replicate (MAXLINE - (find_network_newline c.buf c.num_bytes).toNat) none) with
    | error f => exact parse_line_fault _ _ _ hp
    | ok req =>
      simp only [after_line]
      refine ⟨?_, ?_, ?_⟩
      · simp only [List.length_append, List.length_map, List.length_range, List.length_drop]
        omega
      · simp only; omega
      · simp only; omega
  · rw [parse_req_start_line_incomplete MAXLINE MAXQ mem c hw]
    exact hwf0

/-- One call keeps a well-formed client well-formed, or faults without a store
outside the buffer. -/
theorem run_call_wf (MAXLINE MAXQ : Nat) (k : Call) (c : ClientState)
    (hwf : c.WellFormed MAXLINE) :
    match run_call MAXLINE MAXQ k c with
    | .ok c1 => c1.WellFormed MAXLINE
    | .error f => f ≠ .bufferOverflow := by
  cases k with
  | read r =>
    obtain ⟨ret, c1, h1, h2⟩ := read_from_client_wf MAXLINE r c hwf
    simp only [run_call, h1]
    exact h2
  | remove mem =>
    obtain ⟨c1, h1, h2, _⟩ := remove_buffered_line_wf MAXLINE mem c hwf
    simp only [run_call, h1]
    exact h2
  | parse mem =>
    have := parse_req_start_line_wf MAXLINE MAXQ mem c hwf
    simp only [run_call]
    cases hp : parse_req_start_line MAXLINE MAXQ mem c with
    | error f => rw [hp] at this; exact this
    | ok r => obtain ⟨ret, c1⟩ := r; rw [hp] at this; exact this

/-- A run of calls from a well-formed client ends in a well-formed client, or in a
fault that is not a store outside the buffer. -/
theorem run_calls_wf (MAXLINE MAXQ : Nat) :
    ∀ (calls : List Call) (c : ClientState), c.WellFormed MAXLINE →
      match run_calls MAXLINE MAXQ calls c with
      | .ok c1 => c1.WellFormed MAXLINE
      | .error f => f ≠ .bufferOverflow
  | [], c, hwf => hwf
  | k :: ks, c, hwf => by
    have h1 := run_call_wf MAXLINE MAXQ k c hwf
    simp only [run_calls]
    cases hk : run_call MAXLINE MAXQ k c with
    | error f => rw [hk] at h1; exact h1
    | ok c1 =>
      rw [hk] at h1
      exact run_calls_wf MAXLINE MAXQ ks c1 h1

/-- C4: starting from an empty buffer, after every finite sequence of
`read_from_client`, `remove_buffered_line` and `parse_req_start_line` calls (a read
delivers at most the room it asks for), the client has `0 ≤ num_bytes ≤ MAXLINE - 1`
and a buffer of `MAXLINE` bytes; a run that faults does not fault through a store
into the buffer at an index outside `[0, MAXLINE)`. -/
theorem num_bytes_invariant (MAXLINE MAX_QUERY_PARAMS : Nat) (calls : List Call)
    (c0 : ClientState) (hM : 1 ≤ MAXLINE) (hlen : c0.buf.length = MAXLINE)
    (h0 : c0.num_bytes = 0) :
    KeepsBounds MAXLINE (run_calls MAXLINE MAX_QUERY_PARAMS calls c0) := by
  have h := run_calls_wf MAXLINE MAX_QUERY_PARAMS calls c0 ⟨hlen, by omega, by omega⟩
  cases hr : run_calls MAXLINE MAX_QUERY_PARAMS calls c0 with
  | ok c => rw [hr] at h; exact h
  | error f => rw [hr] at h; exact h

/-! ### One read or many reads -/

/-- Buffers that agree on the pairs inside the first `inbuf` bytes give the same
result. -/
theorem find_network_newline_congr (a b : List Nat) (inbuf : Int)
    (h : ∀ k : Nat, (k : Int) + 1 < inbuf → (CRLFAt a k ↔ CRLFAt b k)) :
    find_network_newline a inbuf = find_network_newline b inbuf := by
  rcases find_network_newline_cases a inbuf with ⟨k, hk1, hk2, hk3, hk4⟩ | ⟨hno, hr⟩
  · rw [hk4]
    symm
    apply find_network_newline_first b inbuf k hk1 ((h k hk1).mp hk2)
    intro j hj hc
    exact hk3 j hj ((h j (by omega)).mpr hc)
  · rw [hr]
    rcases find_network_newline_cases b inbuf with ⟨k, hk1, hk2, _, _⟩ | ⟨_, hr2⟩
    · exact absurd ((h k hk1).mpr hk2) (hno k hk1)
    · exact hr2.symm

/-- A pair inside a prefix of a list is a pair of the list. -/
theorem crlfAt_take (buf : List Nat) (n k : Nat) (hk : k + 1 < n) :
    CRLFAt (buf.take n) k ↔ CRLFAt buf k := by
  unfold CRLFAt
  rw [List.getElem?_take_of_lt (by omega), List.getElem?_take_of_lt hk]

/-- Only the valid region of the buffer counts. -/
theorem find_network_newline_take (buf x : List Nat) (hx : buf.take x.length = x) :
    find_network_newline buf x.length = find_network_newline x x.length := by
  apply find_network_newline_congr
  intro k hk
  have := crlfAt_take buf x.length k (by omega)
  rw [hx] at this
  exact this.symm

/-- A line framed in a prefix of `s` is the line framed in `s`. -/
theorem find_network_newline_prefix (y z : List Nat)
    (hy : 0 < find_network_newline y y.length) :
    find_network_newline (y ++ z) ((y ++ z).length : Nat) = find_network_newline y y.length := by
  rcases find_network_newline_cases y y.length with ⟨k, hk1, hk2, hk3, hk4⟩ | ⟨_, hr⟩
  · have hyz : y = (y ++ z).take y.length := by rw [List.take_left' rfl]
    rw [hk4]
    apply find_network_newline_first
    · simp only [List.length_append]; push_cast; omega
    · rw [hyz] at hk2
      exact (crlfAt_take (y ++ z) y.length k (by omega)).mp hk2
    · intro j hj hc
      apply hk3 j hj
      rw [hyz]
      exact (crlfAt_take (y ++ z) y.length j (by omega)).mpr hc
  · rw [hr] at hy; omega

/-- The parse of a well-formed client whose valid region `y` frames a line, when
`y` is a prefix of `s`: the request is the one `parse_line` builds from the line
copy of `s`. -/
theorem parse_req_start_line_prefix (MAXLINE MAXQ : Nat) (mem : Nat → Nat) (c : ClientState)
    (y z : List Nat) (hwf : c.WellFormed MAXLINE) (hnb : c.num_bytes = (y.length : Nat))
    (hbuf : c.buf.take y.length = y) (hy : 0 < find_network_newline y y.length) :
    (∃ f, parse_line MAXQ (line_copy MAXLINE (y ++ z)) = .error f ∧
        parse_req_start_line MAXLINE MAXQ mem c = .error f) ∨
    (∃ req c1, parse_line MAXQ (line_copy MAXLINE (y ++ z)) = .ok req ∧
        parse_req_start_line MAXLINE MAXQ mem c = .ok (1, c1) ∧ c1.reqData = some req) := by
  obtain ⟨hlen, _, hnb1⟩ := hwf
  have hfind : find_network_newline c.buf c.num_bytes = find_network_newline y y.length := by
    rw [hnb]; exact find_network_newline_take c.buf y hbuf
  have hw : 0 < find_network_newline c.buf c.num_bytes := by rw [hfind]; exact hy
  have hb := find_network_newline_bounds _ _ hy
  have hline : (c.buf.take (find_network_newline c.buf c.num_bytes).toNat).map some ++
      List.replicate (MAXLINE - (find_network_newline c.buf c.num_bytes).toNat) none
      = line_copy MAXLINE (y ++ z) := by
    unfold line_copy
    rw [hfind, find_network_newline_prefix y z hy]
    have hle : (find_network_newline y y.length).toNat ≤ y.length := by omega
    have h1 : c.buf.take (find_network_newline y y.length).toNat
        = y.take (find_network_newline y y.length).toNat := by
      rw [← hbuf, List.take_take, Nat.min_eq_left (by rw [hbuf]; exact hle)]
    have h2 : (y ++ z).take (find_network_newline y y.length).toNat
        = y.take (find_network_newline y y.length).toNat :=
      List.take_append_of_le_length hle
    rw [h1, h2]
  rw [parse_req_start_line_framed MAXLINE MAXQ mem c hlen (by omega) hw, hline]
  cases hp : parse_line MAXQ (line_copy MAXLINE (y ++ z)) with
  | error f => left; exact ⟨f, rfl, rfl⟩
  | ok req => right; exact ⟨req, _, rfl, rfl, rfl⟩

/-- The client after a read of the chunk `ch` behind the valid region `pre`. -/
theorem read_chunk (MAXLINE : Nat) (c : ClientState) (pre ch : List Nat)
    (hwf : c.WellFormed MAXLINE) (hnb : c.num_bytes = (pre.length : Nat))
    (hbuf : c.buf.take pre.length = pre) (hch : ch ≠ [])
    (hfit : (pre ++ ch).length + 1 ≤ MAXLINE) :
    ∃ c1, read_from_client MAXLINE (.data ch) c = .ok ((ch.length : Int), c1) ∧
      c1.WellFormed MAXLINE ∧ c1.num_bytes = ((pre ++ ch).length : Nat) ∧
      c1.buf.take (pre ++ ch).length = pre ++ ch := by
  obtain ⟨hlen, hnb0, hnb1⟩ := hwf
  have hfit2 : pre.length + ch.length + 1 ≤ MAXLINE := by
    simpa [List.length_append] using hfit
  have h1 : 1 ≤ ch.length := by
    rcases ch with _ | ⟨x, xs⟩
    · exact absurd rfl hch
    · simp
  have hrun := read_from_client_delivers MAXLINE c ch ⟨hlen, hnb0, hnb1⟩ h1 (by omega)
  have hk : c.num_bytes.toNat = pre.length := by omega
  have hparts := buf_after_read_parts c.buf pre.length ch (by omega)
  refine ⟨_, hrun, ⟨?_, ?_, ?_⟩, ?_, ?_⟩
  · simp only [hk]
    rw [hparts.2.2.2.1, hlen]
  · simp only; omega
  · simp only; omega
  · simp only [List.length_append]; push_cast; omega
  · simp only [hk, List.length_append]
    rw [hparts.2.2.2.2, hbuf]

/-- Reads of chunks, with a parse after each: while the valid region `pre` frames no
line, the outcome is the one of `parse_line` on the line copy of all the bytes. -/
theorem feed_chunks_prefix (MAXLINE MAXQ : Nat) (mem : Nat → Nat) :
    ∀ (chunks : List (List Nat)) (pre : List Nat) (c : ClientState),
      c.WellFormed MAXLINE → c.num_bytes = (pre.length : Nat) → c.buf.take pre.length = pre →
      ¬ 0 < find_network_newline pre pre.length →
      (∀ ch ∈ chunks, ch ≠ []) → (pre ++ chunks.flatten).length + 1 ≤ MAXLINE →
      0 < find_network_newline (pre ++ chunks.flatten) ((pre ++ chunks.flatten).length : Nat) →
      (∃ f, parse_line MAXQ (line_copy MAXLINE (pre ++ chunks.flatten)) = .error f ∧
          feed_chunks MAXLINE MAXQ mem chunks c = .error f) ∨
      (∃ req c1, parse_line MAXQ (line_copy MAXLINE (pre ++ chunks.flatten)) = .ok req ∧
          feed_chunks MAXLINE MAXQ mem chunks c = .ok (some c1) ∧ c1.reqData = some req)
  | [], pre, c, _, _, _, hpre, _, _, hs => by
    simp only [List.flatten_nil, List.append_nil] at hs
    exact absurd hs hpre
  | ch :: rest, pre, c, hwf, hnb, hbuf, hpre, hne, hfit, hs => by
    have hch : ch ≠ [] := hne ch (List.mem_cons_self _ _)
    have hne2 : ∀ x ∈ rest, x ≠ [] := fun x hx => hne x (List.mem_cons_of_mem _ hx)
    have e : pre ++ (ch :: rest).flatten = (pre ++ ch) ++ rest.flatten := by simp
    rw [e] at hfit hs ⊢
    obtain ⟨c1, hr, hwf1, hnb1, hbuf1⟩ := read_chunk MAXLINE c pre ch hwf hnb hbuf hch
      (by simp only [List.length_append] at hfit ⊢; omega)
    by_cases hy : 0 < find_network_newline (pre ++ ch) ((pre ++ ch).length : Nat)
    · rcases parse_req_start_line_prefix MAXLINE MAXQ mem c1 (pre ++ ch) rest.flatten hwf1 hnb1
        hbuf1 hy with ⟨f, hp1, hp2⟩ | ⟨req, c2, hp1, hp2, hp3⟩
      · left
        refine ⟨f, hp1, ?_⟩
        simp only [feed_chunks, hr, hp2]
      · right
        refine ⟨req, c2, hp1, ?_, hp3⟩
        simp only [feed_chunks, hr, hp2, if_true]
    · have hfind : find_network_newline c1.buf c1.num_bytes
          = find_network_newline (pre ++ ch) ((pre ++ ch).length : Nat) := by
        rw [hnb1]; exact find_network_newline_take c1.buf (pre ++ ch) hbuf1
      have hp := parse_req_start_line_incomplete MAXLINE MAXQ mem c1 (by rw [hfind]; exact hy)
      have ih := feed_chunks_prefix MAXLINE MAXQ mem rest (pre ++ ch) c1 hwf1 hnb1 hbuf1 hy
        hne2 hfit hs
      simp only [feed_chunks, hr, hp]
      rw [if_neg (by decide)]
      exact ih

/-- A buffer that holds a CR LF pair frames a line. -/
theorem find_network_newline_pos (s : List Nat)
    (h : ∃ i : Nat, i + 1 < s.length ∧ CRLFAt s i) :
    0 < find_network_newline s s.length := by
  obtain ⟨i, hi1, hi2⟩ := h
  rcases find_network_newline_cases s s.length with ⟨k, _, _, _, hk4⟩ | ⟨hno, _⟩
  · rw [hk4]; omega
  · exact absurd hi2 (hno i (by omega))

/-- With a read of a never-written byte counted as a fault: for a byte string `s`
with `|s| ≤ MAXLINE - 1` that holds a CR LF pair and every split of `s` into non-empty
chunks, the reads of the chunks with a `parse_req_start_line` after each end as one
read of `s` with one `parse_req_start_line` does: in the same fault, or with the
same blocks stored in the request data. -/
theorem feed_chunks_as_one_read (MAXLINE MAX_QUERY_PARAMS : Nat) (mem1 mem2 : Nat → Nat)
    (s : List Nat) (chunks : List (List Nat)) (c0 : ClientState)
    (hlen : c0.buf.length = MAXLINE) (h0 : c0.num_bytes = 0)
    (hs : s.length + 1 ≤ MAXLINE) (hcr : ∃ i : Nat, i + 1 < s.length ∧ CRLFAt s i)
    (hjoin : chunks.flatten = s) (hne : ∀ ch ∈ chunks, ch ≠ []) :
    (∃ f, feed_chunks MAXLINE MAX_QUERY_PARAMS mem1 chunks c0 = .error f ∧
        one_read MAXLINE MAX_QUERY_PARAMS mem2 s c0 = .error f) ∨
    (∃ c1 c2 req, feed_chunks MAXLINE MAX_QUERY_PARAMS mem1 chunks c0 = .ok (some c1) ∧
        one_read MAXLINE MAX_QUERY_PARAMS mem2 s c0 = .ok (1, c2) ∧
        c1.reqData = some req ∧ c2.reqData = some req) := by
  have hwf0 : c0.WellFormed MAXLINE := ⟨hlen, by omega, by omega⟩
  have hpos := find_network_newline_pos s hcr
  have hsne : s ≠ [] := by
    obtain ⟨i, hi, _⟩ := hcr
    intro h; rw [h] at hi; simp at hi
  -- one read
  obtain ⟨c1, hr, hwf1, hnb1, hbuf1⟩ := read_chunk MAXLINE c0 [] s hwf0 (by simpa using h0)
    (by simp) hsne (by simpa using hs)
  simp only [List.nil_append] at hr hnb1 hbuf1
  have hone := parse_req_start_line_prefix MAXLINE MAX_QUERY_PARAMS mem2 c1 s [] hwf1 hnb1
    hbuf1 hpos
  simp only [List.append_nil] at hone
  -- many reads
  have hmany := feed_chunks_prefix MAXLINE MAX_QUERY_PARAMS mem1 chunks [] c0 hwf0
    (by simpa using h0) (by simp) (by decide) hne (by simpa [hjoin] using hs)
    (by simpa [hjoin] using hpos)
  simp only [List.nil_append, hjoin] at hmany
  rcases hmany with ⟨f, hp1, hp2⟩ | ⟨req, c2, hp1, hp2, hp3⟩
  · left
    refine ⟨f, hp2, ?_⟩
    rcases hone with ⟨f2, hq1, hq2⟩ | ⟨req2, c3, hq1, _, _⟩
    · rw [hp1] at hq1
      cases hq1
      simp only [one_read, hr, hq2]
    · rw [hp1] at hq1; cases hq1
  · right
    rcases hone with ⟨f2, hq1, _⟩ | ⟨req2, c3, hq1, hq2, hq3⟩
    · rw [hp1] at hq1; cases hq1
    · rw [hp1] at hq1
      cases hq1
      refine ⟨c2, c3, req, hp2, ?_, hp3, hq3⟩
      simp only [one_read, hr, hq2]

/-- Witness for C4: a read that offers more than fits in a 16-byte buffer, a parse, a
line removal and a failed read. -/
theorem num_bytes_invariant_witness :
    KeepsBounds 16 (run_calls 16 5
        [.read (.data (bytes "GET /a H\r\nHost: example\r\n")), .parse (fun _ => 0),
          .remove (fun _ => 7), .read .failed] (client_holding 16 [])) := by
  exact num_bytes_invariant 16 5 _ _ (by decide) (by decide) (by decide)

/-! ### Remaining claims on the buffer and the query -/

/-- A read that delivers no byte, or that fails, returns -1 and leaves the client as
it is. -/
theorem read_from_client_nothing (MAXLINE : Nat) (c : ClientState) :
    read_from_client MAXLINE (.data []) c = .ok (-1, c) ∧
    read_from_client MAXLINE .failed c = .ok (-1, c) := by
  constructor <;>
  · unfold read_from_client sys_read store_bytes
    simp

/-- C16: when the valid region `buf[0..num_bytes)` holds no CR LF pair,
`remove_buffered_line` returns the client as it is: `num_bytes` and every byte of
`buf` are unchanged. -/
theorem remove_buffered_line_no_line (MAXLINE : Nat) (mem : Nat → Nat) (c : ClientState)
    (hno : ∀ i : Nat, (i : Int) + 1 < c.num_bytes → ¬ CRLFAt c.buf i) :
    remove_buffered_line MAXLINE mem c = .ok c := by
  apply remove_buffered_line_not_found
  rcases find_network_newline_cases c.buf c.num_bytes with ⟨k, hk1, hk2, _, _⟩ | ⟨_, hr⟩
  · exact absurd hk2 (hno k hk1)
  · rw [hr]; decide

/-- Witness for C16: a buffer that holds "hello" and a lone CR. -/
theorem remove_buffered_line_no_line_witness :
    remove_buffered_line 32 (fun _ => 7) (client_holding 32 (bytes "hello\r"))
      = .ok (client_holding 32 (bytes "hello\r")) :=
  remove_buffered_line_no_line 32 (fun _ => 7) (client_holding 32 (bytes "hello\r"))
    (by
      intro i hi
      have h6 : (client_holding 32 (bytes "hello\r")).num_bytes = 6 := by decide
      rw [h6] at hi
      have hi5 : i < 5 := by omega
      interval_cases i <;> decide)

/-- C19: for `a`, `b`, `c` without `'='`, `'&'` and NUL, `parse_query` on `a=b=c`
returns without a fault and leaves slot 0 holding the name `b` and the value `c`;
every other slot and the other fields are as before. -/
theorem parse_query_double_name (MAX_QUERY_PARAMS : Nat) (req : ReqData) (a b c : List Nat)
    (hM : 1 ≤ MAX_QUERY_PARAMS) (hreq : req.params.length = MAX_QUERY_PARAMS)
    (ha : Plain a) (hb : Plain b) (hc : Plain c) :
    parse_query MAX_QUERY_PARAMS req (a ++ 61 :: b ++ 61 :: c) =
      .ok { req with params := req.params.set 0 (pair_slot (b, c)) } := by
  have hlt : 0 < req.params.length := by omega
  have hnul : ∀ x ∈ a ++ 61 :: b ++ 61 :: c, x ≠ 0 := by
    intro x hx
    simp only [List.mem_append, List.mem_cons] at hx
    rcases hx with (hx | hx | hx) | hx | hx
    · exact (ha x hx).2.2
    · omega
    · exact (hb x hx).2.2
    · omega
    · exact (hc x hx).2.2
  have hstr := strlen_eq_length _ hnul
  have e1 : a ++ 61 :: b ++ 61 :: c = [] ++ a ++ 61 :: (b ++ 61 :: c) := by simp
  have e2 : a ++ 61 :: b ++ 61 :: c = (a ++ [61]) ++ b ++ 61 :: c := by simp
  have e3 : a ++ 61 :: b ++ 61 :: c = (a ++ 61 :: b ++ [61]) ++ c ++ [] := by simp
  have hfuel : strlen (a ++ 61 :: b ++ 61 :: c)
      = ((0 + c.length) + 1 + b.length) + 1 + a.length := by
    rw [hstr]; simp only [List.length_append, List.length_cons]; omega
  unfold parse_query
  rw [hfuel]
  have h1 := parse_query_loop_name MAX_QUERY_PARAMS [] a (b ++ 61 :: c)
    ((0 + c.length) + 1 + b.length) 0 req (req.params[0]) ha (by omega)
    (List.getElem?_eq_getElem hlt) (by rw [← e1]; exact hstr)
  rw [← e1] at h1
  simp only [List.length_nil, Nat.zero_add] at h1
  simp only [Nat.zero_add]
  rw [h1]
  have h2 := parse_query_loop_name MAX_QUERY_PARAMS (a ++ [61]) b c c.length 0
    { req with params := req.params.set 0 { req.params[0] with name := some (cstring a) } }
    { req.params[0] with name := some (cstring a) } hb (by omega)
    (by simp [List.getElem?_set, hlt]) (by rw [← e2]; exact hstr)
  rw [← e2] at h2
  simp only [List.length_append, List.length_singleton] at h2
  rw [h2]
  have h3 := fun R => parse_query_loop_run MAX_QUERY_PARAMS c (a ++ 61 :: b ++ [61]) [] 0 0 0 R
    hc (by omega) (by rw [← e3]; exact hstr)
  simp only [← e3, List.length_append, List.length_cons, List.length_nil, Nat.zero_add] at h3
  have hi : a.length + 1 + b.length + 1 = a.length + (b.length + 1) + 1 := by omega
  rw [hi, h3, parse_query_loop_at_end _ _ _ _ _ _ _ (by rw [hstr]; simp; omega)]
  have h4 := copy_run_eq (a ++ 61 :: b ++ [61]) c []
  rw [← e3] at h4
  simp only [List.length_append, List.length_cons, List.length_nil, Nat.zero_add] at h4
  simp only [parse_query_finish, h4, set_value, List.getElem?_set, hlt, if_true, List.set_set,
    pair_slot]

/-- Witness for C19: "a=b=c" with five slots. -/
theorem parse_query_double_name_witness :
    parse_query 5 (fresh_req 5) (bytes "a=b=c") =
      .ok { method := none, path := none,
            params := [pair_slot (bytes "b", bytes "c"), { name := none, value := none },
              { name := none, value := none }, { name := none, value := none },
              { name := none, value := none }] } :=
  parse_query_double_name 5 (fresh_req 5) (bytes "a") (bytes "b") (bytes "c")
    (by decide) (by decide) (by decide) (by decide) (by decide)

/-! ### Multipart upload -/

/-- `strncat` behind a string `A` that is followed by its NUL and by the cells `R`. -/
theorem strncat_append (A : List Nat) (R : Block) (src : List Nat) (n : Nat)
    (hA : Free [] A) (hfit : ((src.take (strlen src)).take n).length ≤ R.length) :
    strncat (A.map some ++ some 0 :: R) src n =
      .ok (A.map some ++ ((src.take (strlen src)).take n).map some ++
        some 0 :: R.drop ((src.take (strlen src)).take n).length) := by
  unfold strncat
  rw [strcspn_run [] 0 R (Or.inl rfl) A hA]
  simp only
  rw [if_pos (by simp only [List.length_append, List.length_map, List.length_cons]; omega)]
  have h1 : (A.map some ++ some 0 :: R).take A.length = A.map some :=
    List.take_left' (by simp)
  have h2 : (A.map some ++ some 0 :: R).drop
      (A.length + ((src.take (strlen src)).take n).length + 1)
      = R.drop ((src.take (strlen src)).take n).length := by
    have e : A.length + ((src.take (strlen src)).take n).length + 1
        = (A.map some).length + (((src.take (strlen src)).take n).length + 1) := by
      simp only [List.length_map]; omega
    rw [e, List.drop_append, List.drop_succ_cons]
  rw [h1, h2]

/-- The pattern that `save_file_upload` builds in `end` when the stack happens to hold
a NUL in the third byte of the array: CR LF, the boundary, one `'-'`, CR LF. -/
theorem build_end_lucky (boundary : List Nat) (x y : Option Nat) (rest : Block)
    (hb : ∀ c ∈ boundary, c ≠ 0) (hrest : rest.length = boundary.length + 3) :
    ∃ e, build_end (x :: y :: some 0 :: rest) boundary = .ok e ∧
      string_at e (some 0) = .ok (13 :: 10 :: boundary ++ [45, 13, 10]) := by
  have hlen := strlen_eq_length boundary hb
  have hfree : Free [] boundary := fun c hc => ⟨hb c hc, List.not_mem_nil c⟩
  have hs : strlen [13, 10] = 2 := by decide
  have hs2 : ([45, 13, 10, 0].take (strlen [45, 13, 10, 0])).take 4 = [45, 13, 10] := by decide
  have hb2 : (boundary.take (strlen boundary)).take (strlen boundary) = boundary := by
    rw [hlen, List.take_length, List.take_length]
  have h1 : strncpy ((x :: y :: some 0 :: rest).take (6 + strlen boundary) ++
      List.replicate (6 + strlen boundary - (x :: y :: some 0 :: rest).length) none) [13, 10] 2
      = .ok ([13, 10].map some ++ some 0 :: rest) := by
    have ht : (x :: y :: some 0 :: rest).take (6 + strlen boundary) = x :: y :: some 0 :: rest :=
      List.take_of_length_le (by simp only [List.length_cons, hlen]; omega)
    have hr : 6 + strlen boundary - (x :: y :: some 0 :: rest).length = 0 := by
      simp only [List.length_cons, hlen]; omega
    rw [ht, hr]
    unfold strncpy
    rw [if_pos (by simp)]
    simp [hs]
  have h2 := strncat_append [13, 10] rest boundary (strlen boundary) (by decide)
    (by rw [hb2]; omega)
  rw [hb2] at h2
  have e2 : [13, 10].map some ++ boundary.map some ++ some 0 :: rest.drop boundary.length
      = (13 :: 10 :: boundary).map some ++ some 0 :: rest.drop boundary.length := by simp
  have hfree2 : Free [] (13 :: 10 :: boundary) := by
    intro c hc
    simp only [List.mem_cons] at hc
    rcases hc with hc | hc | hc
    · subst hc; exact ⟨by decide, List.not_mem_nil _⟩
    · subst hc; exact ⟨by decide, List.not_mem_nil _⟩
    · exact hfree c hc
  have h3 := strncat_append (13 :: 10 :: boundary) (rest.drop boundary.length) [45, 13, 10, 0] 4
    hfree2 (by rw [hs2]; simp only [List.length_drop, List.length_cons, List.length_nil]; omega)
  rw [hs2] at h3
  have hd : (rest.drop boundary.length).drop ([45, 13, 10] : List Nat).length = [] := by
    apply List.drop_of_length_le
    simp only [List.length_drop, List.length_cons, List.length_nil]; omega
  rw [hd] at h3
  refine ⟨(13 :: 10 :: boundary).map some ++ [45, 13, 10].map some ++ [some 0], ?_, ?_⟩
  · unfold build_end
    rw [h1]
    simp only
    rw [h2, e2]
    simp only
    exact h3
  · have e4 : (13 :: 10 :: boundary).map some ++ [45, 13, 10].map some ++ [some 0]
        = [] ++ (13 :: 10 :: boundary ++ [45, 13, 10]).map some ++ some 0 :: [] := by simp
    rw [e4]
    have hfree3 : Free [] (13 :: 10 :: boundary ++ [45, 13, 10]) := by
      intro c hc
      simp only [List.cons_append, List.mem_cons, List.mem_append, List.mem_singleton,
        List.not_mem_nil, or_false] at hc
      rcases hc with hc | hc | hc | hc | hc | hc
      · subst hc; exact ⟨by decide, List.not_mem_nil _⟩
      · subst hc; exact ⟨by decide, List.not_mem_nil _⟩
      · exact hfree c hc
      · subst hc; exact ⟨by decide, List.not_mem_nil _⟩
      · subst hc; exact ⟨by decide, List.not_mem_nil _⟩
      · subst hc; exact ⟨by decide, List.not_mem_nil _⟩
    exact string_at_token [] [] _ hfree3

/-- On a stack that was never written, the first `strncat` of `save_file_upload`
reads the unwritten third byte of `end`. -/
theorem build_end_unwritten (boundary : List Nat) :
    build_end [] boundary = .error .uninitRead := by
  unfold build_end strncpy
  rw [if_pos (by simp; omega)]
  have e : (([13, 10].take (strlen [13, 10])).take 2 ++ List.replicate (2 - strlen [13, 10]) 0).map some
      ++ (([] : Block).take (6 + strlen boundary) ++
          List.replicate (6 + strlen boundary - ([] : Block).length) none).drop 2
      = some 13 :: some 10 :: none :: List.replicate (3 + strlen boundary) none := by
    have hs : strlen [13, 10] = 2 := by decide
    have h6 : 6 + strlen boundary - 0 = (3 + strlen boundary) + 3 := by omega
    simp only [hs, List.take_nil, List.nil_append, List.length_nil, h6]
    simp [List.replicate_succ]
  rw [e]
  simp only [strncat, strcspn]
  simp

/-- A NUL inside the buffer makes the condition `strlen(client->buf) == MAXLINE`
false. -/
theorem flush_condition_nul (MAXLINE : Nat) (mem : Nat → Nat) (buf : List Nat) (k : Nat)
    (hk : k < MAXLINE) (h0 : buf[k]? = some 0) : flush_condition MAXLINE mem buf = false := by
  unfold flush_condition
  rw [Bool.and_eq_false_iff]
  left
  rw [List.all_eq_false]
  refine ⟨k, List.mem_range.mpr hk, ?_⟩
  simp [peek, h0]

/-- A read keeps a well-formed client with its sentinel NUL well-formed and with a
sentinel NUL, whatever the socket has. -/
theorem read_from_client_sentinel (MAXLINE : Nat) (r : ReadResult) (c : ClientState)
    (hwf : c.WellFormed MAXLINE) (hs : Sentinel MAXLINE c) :
    ∃ ret c1, read_from_client MAXLINE r c = .ok (ret, c1) ∧ c1.WellFormed MAXLINE ∧
      Sentinel MAXLINE c1 := by
  have hwf0 := hwf
  obtain ⟨hlen, hnb0, hnb1⟩ := hwf
  have hroom : size_t_of_int ((MAXLINE : Int) - c.num_bytes - 1)
      = ((MAXLINE : Int) - c.num_bytes - 1).toNat := by
    unfold size_t_of_int
    rw [if_neg (by omega)]
  cases r with
  | failed => exact ⟨-1, c, (read_from_client_nothing MAXLINE c).2, hwf0, hs⟩
  | data pending =>
    rw [read_from_client_pending, hroom]
    by_cases hd : pending.take ((MAXLINE : Int) - c.num_bytes - 1).toNat = []
    · rw [hd]
      exact ⟨-1, c, (read_from_client_nothing MAXLINE c).1, hwf0, hs⟩
    · have hlen1 : 1 ≤ (pending.take ((MAXLINE : Int) - c.num_bytes - 1).toNat).length := by
        rcases hp : pending.take ((MAXLINE : Int) - c.num_bytes - 1).toNat with _ | ⟨x, xs⟩
        · exact absurd hp hd
        · simp
      have hlen2 : ((pending.take ((MAXLINE : Int) - c.num_bytes - 1).toNat).length : Int)
          ≤ (MAXLINE : Int) - c.num_bytes - 1 := by
        have := List.length_take_le ((MAXLINE : Int) - c.num_bytes - 1).toNat pending
        omega
      have hparts := buf_after_read_parts c.buf c.num_bytes.toNat
        (pending.take ((MAXLINE : Int) - c.num_bytes - 1).toNat) (by omega)
      refine ⟨_, _, read_from_client_delivers MAXLINE c _ hwf0 hlen1 hlen2, ⟨?_, ?_, ?_⟩, ?_⟩
      · simp only
        rw [hparts.2.2.2.1, hlen]
      · simp only; omega
      · simp only; omega
      · refine ⟨c.num_bytes.toNat +
          (pending.take ((MAXLINE : Int) - c.num_bytes - 1).toNat).length, ?_, ?_, ?_⟩
        · simp only; push_cast; omega
        · omega
        · exact hparts.2.2.1

/-- A line removal keeps a well-formed client with its sentinel NUL well-formed
and with a sentinel NUL. -/
theorem remove_buffered_line_sentinel (MAXLINE : Nat) (mem : Nat → Nat) (c : ClientState)
    (hwf : c.WellFormed MAXLINE) (hs : Sentinel MAXLINE c) :
    ∃ c1, remove_buffered_line MAXLINE mem c = .ok c1 ∧ c1.WellFormed MAXLINE ∧
      Sentinel MAXLINE c1 := by
  have hwf0 := hwf
  obtain ⟨hlen, hnb0, hnb1⟩ := hwf
  by_cases hw : 0 < find_network_newline c.buf c.num_bytes
  · have hb := find_network_newline_bounds _ _ hw
    obtain ⟨k, hk1, hk2, hk3⟩ := hs
    refine ⟨_, remove_buffered_line_found MAXLINE mem c hlen (by omega) hw, ⟨?_, ?_, ?_⟩, ?_⟩
    · simp only [List.length_append, List.length_map, List.length_range, List.length_drop]
      omega
    · simp only; omega
    · simp only; omega
    · refine ⟨k, ?_, hk2, ?_⟩
      · simp only; omega
      · simp only
        rw [List.getElem?_append_right (by simp; omega)]
        simp only [List.length_map, List.length_range, List.getElem?_drop]
        rw [← hk3]
        congr 1
        omega
  · exact ⟨c, remove_buffered_line_not_found MAXLINE mem c hw, hwf0, hs⟩

/-- From a well-formed client with a sentinel NUL, the loop of `save_file_upload`
writes nothing to `file_fd`, however long it runs. -/
theorem save_file_upload_loop_written (MAXLINE : Nat) (mem : Nat → Nat)
    (sock : Nat → ReadResult) (pattern : List Nat) :
    ∀ (fuel : Nat) (c : ClientState) (w : List Nat) (n : Nat),
      c.WellFormed MAXLINE → Sentinel MAXLINE c →
      (save_file_upload_loop MAXLINE mem sock pattern fuel c w n).written = w := by
  intro fuel
  induction fuel with
  | zero => intro c w n _ _; rfl
  | succ fuel ih =>
    intro c w n hwf hs
    unfold save_file_upload_loop
    split
    · rfl
    · obtain ⟨k, _, hk2, hk3⟩ := hs
      rw [flush_condition_nul MAXLINE mem c.buf k hk2 hk3]
      obtain ⟨ret, c1, hr, hwf1, hs1⟩ := read_from_client_sentinel MAXLINE (sock n) c hwf
        ⟨k, by assumption, hk2, hk3⟩
      simp only [hr, Bool.false_eq_true, if_false]
      exact ih c1 w (n + 1) hwf1 hs1

/-- From a well-formed client with a sentinel NUL, `save_file_upload` writes nothing
to `file_fd`, however long it runs. -/
theorem save_file_upload_written (MAXLINE : Nat) (mem : Nat → Nat) (sock : Nat → ReadResult)
    (stack : Block) (fuel : Nat) (c : ClientState) (boundary : List Nat)
    (hwf : c.WellFormed MAXLINE) (hs : Sentinel MAXLINE c) :
    (save_file_upload MAXLINE mem sock stack fuel c boundary).written = [] := by
  obtain ⟨c1, hr1, hwf1, hs1⟩ := remove_buffered_line_sentinel MAXLINE mem c hwf hs
  obtain ⟨c2, hr2, hwf2, hs2⟩ := remove_buffered_line_sentinel MAXLINE mem c1 hwf1 hs1
  unfold save_file_upload
  simp only [hr1, hr2]
  cases build_end stack boundary with
  | error f => rfl
  | ok e =>
    simp only
    cases string_at e (some 0) with
    | error f => rfl
    | ok pattern =>
      exact save_file_upload_loop_written MAXLINE mem sock pattern fuel c2 [] 0 hwf2 hs2

/-- When the socket has nothing more to deliver, the front of the buffer is not
the pattern and the flush condition is false, the loop of `save_file_upload`
neither returns nor changes anything, however long it runs. -/
theorem save_file_upload_loop_stuck (MAXLINE : Nat) (mem : Nat → Nat) (sock : Nat → ReadResult)
    (pattern : List Nat) (c : ClientState) (w : List Nat)
    (hsock : ∀ m, sock m = .data [] ∨ sock m = .failed)
    (hfront : front_matches mem c.buf pattern = false)
    (hflush : flush_condition MAXLINE mem c.buf = false) :
    ∀ (fuel n : Nat),
      save_file_upload_loop MAXLINE mem sock pattern fuel c w n =
        { run := .running, client := c, written := w, reads := n + fuel } := by
  intro fuel
  induction fuel with
  | zero => intro n; rfl
  | succ fuel ih =>
    intro n
    unfold save_file_upload_loop
    have hr : read_from_client MAXLINE (sock n) c = .ok (-1, c) := by
      rcases hsock n with h | h
      · rw [h]; exact (read_from_client_nothing MAXLINE c).1
      · rw [h]; exact (read_from_client_nothing MAXLINE c).2
    simp only [hfront, hflush, hr, Bool.false_eq_true, if_false]
    rw [ih (n + 1)]
    have : n + 1 + fuel = n + (fuel + 1) := by omega
    rw [this]

/-- C12 (the code at the failing input): boundary "--XYZ", a 64-byte buffer, and the
stream content-type line, blank line, body "AB", CR LF, "--XYZ", "--\r\n".  Whether
the stream is in the buffer when `save_file_upload` is called or is delivered by
the first read, and however long the call runs, nothing is written to `file_fd`;
the body "AB" is not empty. -/
theorem save_file_upload_body_example (fuel : Nat) :
    (save_file_upload 64 (fun _ => 0) closed_sock (List.replicate 11 (some 0)) fuel
      (client_holding 64 (bytes "Content-Type: image/bmp\r\n\r\nAB\r\n--XYZ--\r\n"))
      (bytes "--XYZ")).written = [] ∧
    (save_file_upload 64 (fun _ => 0)
      (fun n => if n = 0 then .data (bytes "Content-Type: image/bmp\r\n\r\nAB\r\n--XYZ--\r\n")
        else .data [])
      (List.replicate 11 (some 0)) fuel (client_holding 64 []) (bytes "--XYZ")).written = [] ∧
    bytes "AB" ≠ [] := by
  refine ⟨?_, ?_, by decide⟩
  · exact save_file_upload_written 64 _ _ _ fuel _ _ (by decide) ⟨40, by decide, by decide, by decide⟩
  · exact save_file_upload_written 64 _ _ _ fuel _ _ (by decide) ⟨0, by decide, by decide, by decide⟩

/-- C13 (the code at the failing input): the buffer holds "AB", which is not the
end pattern, and the socket reports closure (or an error) on every read.  However
long the call runs it does not return: after `fuel` rounds it is still in its loop,
has called `read_from_client` `fuel` times, and has changed nothing. -/

theorem save_file_upload_closed_example (fuel : Nat) :
    save_file_upload 32 (fun _ => 0) closed_sock (List.replicate 11 (some 0)) fuel
        (client_holding 32 (bytes "AB")) (bytes "--XYZ")
      = { run := .running, client := client_holding 32 (bytes "AB"), written := [],
          reads := fuel } ∧
    save_file_upload 32 (fun _ => 0) (fun _ => .failed) (List.replicate 11 (some 0)) fuel
        (client_holding 32 (bytes "AB")) (bytes "--XYZ")
      = { run := .running, client := client_holding 32 (bytes "AB"), written := [],
          reads := fuel } := by
  have h1 : remove_buffered_line 32 (fun _ => 0) (client_holding 32 (bytes "AB"))
      = .ok (client_holding 32 (bytes "AB")) := by decide
  have h2 : build_end (List.replicate 11 (some 0)) (bytes "--XYZ")
      = .ok ((bytes "\r\n--XYZ-\r\n").map some ++ [some 0]) := by decide
  have h3 : string_at ((bytes "\r\n--XYZ-\r\n").map some ++ [some 0]) (some 0)
      = .ok (bytes "\r\n--XYZ-\r\n") := by decide
  constructor
  · unfold save_file_upload
    simp only [h1, h2, h3]
    rw [save_file_upload_loop_stuck 32 (fun _ => 0) closed_sock _ _ []
      (fun _ => Or.inl rfl) (by decide) (by decide) fuel 0, Nat.zero_add]
  · unfold save_file_upload
    simp only [h1, h2, h3]
    rw [save_file_upload_loop_stuck 32 (fun _ => 0) (fun _ => .failed) _ _ []
      (fun _ => Or.inr rfl) (by decide) (by decide) fuel 0, Nat.zero_add]

/-- C14 (the code at the failing input): with the header line behind the line
"X\r\n", `get_boundary` removes "X\r\n" by moving bytes from outside the buffer to
its front, loses the header line and, on a closed socket, returns `NULL`.  With the
header line at the front of the buffer, the `strncat` of `get_boundary` stores its
NUL one byte past the block that `malloc` returned. -/
theorem get_boundary_example :
    (∃ c n, get_boundary 64 POST_BOUNDARY_HEADER (fun _ => 0) closed_sock 8 0
        (client_holding 64 (bytes "X\r\n" ++ POST_BOUNDARY_HEADER ++ bytes "XYZ\r\n"))
      = .returned (none, c, n)) ∧
    get_boundary 64 POST_BOUNDARY_HEADER (fun _ => 0) closed_sock 8 0
        (client_holding 64 (POST_BOUNDARY_HEADER ++ bytes "XYZ\r\n"))
      = .faulted .blockOverflow := by
  exact ⟨⟨_, _, rfl⟩, by decide⟩

/-- C15 (the code at the failing input): the buffer holds the boundary line "--XYZ"
and, right behind it, a line that ends in `="a.bmp"` CR LF.  The removal of the
boundary line moves bytes from outside the buffer to its front, the line with the
name is lost, and with zero bytes there no line is framed, so the store
`buf[where - 1]` is `buf[-2]`.  On the same line at the front of the buffer the
statements behind the loop do return "a.bmp". -/
theorem get_bitmap_filename_example :
    get_bitmap_filename 96 (fun _ => 0) closed_sock 8
        (client_holding 96 (bytes
          "--XYZ\r\nContent-Disposition: form-data; name=\"f\"; filename=\"a.bmp\"\r\n"))
        (bytes "--XYZ")
      = .faulted .bufferOverflow ∧
    (∃ c, filename_of_line 96 (fun _ => 0)
        (client_holding 96 (bytes
          "Content-Disposition: form-data; name=\"f\"; filename=\"a.bmp\"\r\n"))
      = .ok (cstring (bytes "a.bmp"), c)) := by
  exact ⟨by decide, ⟨_, rfl⟩⟩

/-- C17 (the code at the failing input): for the marker "--XYZ", on a stack that was
never written the first `strncat` reads the unwritten third byte of `end`; on a
stack of NUL bytes the pattern is CR LF, "--XYZ", one `'-'`, CR LF, which is not
CR LF, "--XYZ", "--", CR LF. -/
theorem build_end_example :
    build_end [] (bytes "--XYZ") = .error .uninitRead ∧
    (∃ e, build_end (List.replicate 11 (some 0)) (bytes "--XYZ") = .ok e ∧
      string_at e (some 0) = .ok (bytes "\r\n--XYZ-\r\n")) ∧
    bytes "\r\n--XYZ-\r\n" ≠ bytes "\r\n" ++ bytes "--XYZ" ++ bytes "--\r\n" := by
  exact ⟨by decide, ⟨_, rfl, by decide⟩, by decide⟩

/-- C18 (the code at the failing input): a well-formed client whose buffer holds the
boundary line "--XYZ\r\n" and nothing behind it.  The loop removes the line, the
second `find_network_newline` returns -1, and the store `buf[where - 1] = '\0'` is a
store at `buf[-2]`, outside `[0, MAXLINE)`. -/
theorem get_bitmap_filename_last_line_example (mem : Nat → Nat) :
    (client_holding 32 (bytes "--XYZ\r\n")).WellFormed 32 ∧
    skip_to_boundary 32 mem closed_sock (bytes "--XYZ") 4 0 (client_holding 32 (bytes "--XYZ\r\n"))
      = .returned (some { client_holding 32 (bytes "--XYZ\r\n") with num_bytes := 0 }, 0) ∧
    find_network_newline (client_holding 32 (bytes "--XYZ\r\n")).buf 0 - 1 = -2 ∧
    get_bitmap_filename 32 mem closed_sock 4 (client_holding 32 (bytes "--XYZ\r\n"))
        (bytes "--XYZ")
      = .faulted .bufferOverflow := by
  exact ⟨by decide, rfl, by decide, rfl⟩

/-- C20: a buffer that holds a NUL at an index below `MAXLINE` makes the condition
`strlen(client->buf) == MAXLINE` false; and from a well-formed client whose buffer
holds a NUL at an index from `num_bytes` to `MAXLINE - 1` (where `read_from_client`
puts the sentinel), `save_file_upload` writes no byte to `file_fd`, whatever the socket
delivers and however long the call runs. -/
theorem save_file_upload_never_flushes (MAXLINE : Nat) (mem : Nat → Nat)
    (sock : Nat → ReadResult) (stack : Block) (fuel : Nat) (c : ClientState)
    (boundary : List Nat) (hwf : c.WellFormed MAXLINE) (hs : Sentinel MAXLINE c) :
    (∀ (buf : List Nat) (k : Nat), k < MAXLINE → buf[k]? = some 0 →
        flush_condition MAXLINE mem buf = false) ∧
    flush_condition MAXLINE mem c.buf = false ∧
    (save_file_upload MAXLINE mem sock stack fuel c boundary).written = [] := by
  refine ⟨fun buf k hk h0 => flush_condition_nul MAXLINE mem buf k hk h0, ?_,
    save_file_upload_written MAXLINE mem sock stack fuel c boundary hwf hs⟩
  obtain ⟨k, _, hk2, hk3⟩ := hs
  exact flush_condition_nul MAXLINE mem c.buf k hk2 hk3

/-- Witness for C20: a 32-byte buffer that holds 31 bytes of body and the sentinel,
a socket that has 100 more bytes for every read, 50 rounds of the loop. -/
theorem save_file_upload_never_flushes_witness :
    (∀ (buf : List Nat) (k : Nat), k < 32 → buf[k]? = some 0 →
        flush_condition 32 (fun _ => 0) buf = false) ∧
    flush_condition 32 (fun _ => 0)
        (client_holding 32 (List.replicate 31 65)).buf = false ∧
    (save_file_upload 32 (fun _ => 0) (fun _ => .data (List.replicate 100 66))
        (List.replicate 11 (some 0)) 50 (client_holding 32 (List.replicate 31 65))
        (bytes "--XYZ")).written = [] := by
  exact save_file_upload_never_flushes 32 _ _ _ 50 _ _ (by decide)
    ⟨31, by decide, by decide, by decide⟩

/-! ### log_request, and the bytes behind the line in startline_str -/

/-- On a stack that was never written, `copy_line_on` is `copy_line`. -/
theorem copy_line_on_unwritten (MAXLINE : Nat) (buf : List Nat) (wh : Nat) :
    copy_line_on [] MAXLINE buf wh = copy_line MAXLINE buf wh := by
  unfold copy_line_on copy_line
  by_cases h : wh ≤ MAXLINE ∧ wh ≤ buf.length
  · rw [if_pos h, if_pos h]
    simp [List.drop_replicate]
  · rw [if_neg h, if_neg h]

/-- On a stack that was never written, `parse_req_start_line_on` is
`parse_req_start_line`. -/
theorem parse_req_start_line_on_unwritten (MAXLINE MAX_QUERY_PARAMS : Nat) (mem : Nat → Nat)
    (c : ClientState) :
    parse_req_start_line_on [] MAXLINE MAX_QUERY_PARAMS mem c
      = parse_req_start_line MAXLINE MAX_QUERY_PARAMS mem c := by
  unfold parse_req_start_line_on parse_req_start_line
  simp only [copy_line_on_unwritten]

/-- A block `s`, unwritten byte, with no NUL in `s`, holds no C string for `%s`. -/
theorem print_string_unterminated (s : List Nat) (hs : ∀ b ∈ s, b ≠ 0) :
    print_string (some (copy_unterminated s)) = .error .uninitRead := by
  have hrun : ∀ xs : List Nat, (∀ b ∈ xs, b ≠ 0) →
      strcspn [] (xs.map some ++ [none]) = .error .uninitRead := by
    intro xs
    induction xs with
    | nil => intro _; rfl
    | cons x xs ih =>
      intro h
      have hno : ¬ (x = 0 ∨ x ∈ ([] : List Nat)) := by
        rintro (h0 | h1)
        · exact h x (List.mem_cons_self _ _) h0
        · exact List.not_mem_nil _ h1
      show strcspn [] (some x :: (xs.map some ++ [none])) = _
      rw [strcspn, if_neg hno, ih (fun b hb => h b (List.mem_cons_of_mem _ hb))]
  simp only [print_string, string_at, List.drop_zero, copy_unterminated, hrun s hs]

/-- The call `log_request(req)` on a request whose `method` was never assigned reads
the unassigned pointer. -/
theorem log_request_unassigned (MAX_QUERY_PARAMS : Nat) (req : ReqData)
    (hm : req.method = none) :
    log_request MAX_QUERY_PARAMS req = .error .uninitRead := by
  unfold log_request print_string
  rw [hm]

/-- The call `log_request(req)` on a request whose `method` is the block that the
GET and POST branches build reads the byte of the block that was never written. -/
theorem log_request_unterminated (MAX_QUERY_PARAMS : Nat) (req : ReqData) (s : List Nat)
    (hs : ∀ b ∈ s, b ≠ 0) (hm : req.method = some (copy_unterminated s)) :
    log_request MAX_QUERY_PARAMS req = .error .uninitRead := by
  unfold log_request
  rw [hm, print_string_unterminated s hs]

/-- The function with its call of `log_request`, from the function without it: when
the stores end with the value 1 pending, the whole call ends as `log_request` on
the request stored does. -/
theorem parse_req_start_line_logged_of_stores (MAXLINE MAX_QUERY_PARAMS : Nat)
    (mem : Nat → Nat) (c c1 : ClientState) (req : ReqData)
    (h : parse_req_start_line MAXLINE MAX_QUERY_PARAMS mem c = .ok (1, c1))
    (hr : c1.reqData = some req) :
    parse_req_start_line_logged MAXLINE MAX_QUERY_PARAMS mem c =
      match log_request MAX_QUERY_PARAMS req with
      | .error f => .error f
      | .ok text => .ok (1, c1, text) := by
  unfold parse_req_start_line at h
  unfold parse_req_start_line_logged
  simp only at h ⊢
  split at h
  · rename_i hpos
    rw [if_pos hpos]
    split at h
    · cases h
    · rename_i sl hsl
      split at h
      · cases h
      · rename_i rq hrq
        split at h
        · cases h
        · rename_i cl hcl
          cases h
          simp only [hr]
  · cases h

/-- A failure of the stores is a failure of the whole call. -/
theorem parse_req_start_line_logged_of_fault (MAXLINE MAX_QUERY_PARAMS : Nat)
    (mem : Nat → Nat) (c : ClientState) (f : Fault)
    (h : parse_req_start_line MAXLINE MAX_QUERY_PARAMS mem c = .error f) :
    parse_req_start_line_logged MAXLINE MAX_QUERY_PARAMS mem c = .error f := by
  unfold parse_req_start_line at h
  unfold parse_req_start_line_logged
  simp only at h ⊢
  split at h
  · rename_i hpos
    rw [if_pos hpos]
    split at h
    · rename_i e he
      cases h
      rfl
    · rename_i sl hsl
      split at h
      · cases h
        rfl
      · rename_i rq hrq
        split at h
        · cases h
          rfl
        · cases h
  · cases h

/-- Without a full line the whole call returns 0, changes nothing and prints nothing. -/
theorem parse_req_start_line_logged_incomplete (MAXLINE MAX_QUERY_PARAMS : Nat)
    (mem : Nat → Nat) (c : ClientState)
    (h : ¬ find_network_newline c.buf c.num_bytes > 0) :
    parse_req_start_line_logged MAXLINE MAX_QUERY_PARAMS mem c = .ok (0, c, []) := by
  unfold parse_req_start_line_logged
  simp only
  rw [if_neg h]

/-- On a line with a method other than GET and POST the whole call never returns:
`log_request` reads the `method` pointer, which no branch assigned. -/
theorem other_method_logged (MAXLINE MAX_QUERY_PARAMS : Nat) (mem : Nat → Nat)
    (c : ClientState) (T P : List Nat) (Q : Option (List Nat)) (W : List Nat) (req : ReqData)
    (hwf : c.WellFormed MAXLINE) (htok : Tokens T P Q)
    (hwh : find_network_newline c.buf c.num_bytes = ((start_line T P Q W).length : Nat))
    (hbuf : c.buf.take (start_line T P Q W).length = start_line T P Q W)
    (hT : T ≠ GET ∧ T ≠ POST)
    (hreq : request_of_tokens MAX_QUERY_PARAMS T P Q = .ok req) :
    parse_req_start_line_logged MAXLINE MAX_QUERY_PARAMS mem c = .error .uninitRead := by
  obtain ⟨h1, h2, h3⟩ := other_method_unassigned MAXLINE MAX_QUERY_PARAMS mem c T P Q W req
    hwf htok hwh hbuf hT hreq
  rw [parse_req_start_line_logged_of_stores MAXLINE MAX_QUERY_PARAMS mem c _ req h1 h2,
    log_request_unassigned MAX_QUERY_PARAMS req h3]

/-- C8 (the code at the failing input): the request "GET /x\r\n" holds a CR LF pair
and has no space behind its target, so `strtok` scans past the 8 bytes copied into
`startline_str`.  With a read of a never-written byte counted as a fault, the
delivery in one read and the delivery as "GET /x", "\r\n" both end in that fault
and yield no request.  With the stack given, the path stored is made of the line
and of the stack: one read, on a stack with 'Z' in byte 8, stores the path block
"/x\r\nZ"; the two reads, on a zeroed stack, store the path block "/x\r\n". -/
theorem split_reads_stack_example (mem : Nat → Nat) :
    one_read 32 5 mem (bytes "GET /x\r\n") (client_holding 32 []) = .error .uninitRead ∧
    feed_chunks 32 5 mem [bytes "GET /x", bytes "\r\n"] (client_holding 32 [])
      = .error .uninitRead ∧
    (∃ a1 a2 ra b1 b2 b3 rb,
      read_from_client 32 (.data (bytes "GET /x\r\n")) (client_holding 32 []) = .ok (8, a1) ∧
      parse_req_start_line_on ((zeroed 32).set 8 (some 90)) 32 5 mem a1 = .ok (1, a2) ∧
      a2.reqData = some ra ∧
      ra.path = some (copy_unterminated (bytes "/x\r\nZ")) ∧
      read_from_client 32 (.data (bytes "GET /x")) (client_holding 32 []) = .ok (6, b1) ∧
      parse_req_start_line_on (zeroed 32) 32 5 mem b1 = .ok (0, b1) ∧
      read_from_client 32 (.data (bytes "\r\n")) b1 = .ok (2, b2) ∧
      parse_req_start_line_on (zeroed 32) 32 5 mem b2 = .ok (1, b3) ∧
      b3.reqData = some rb ∧
      rb.path = some (copy_unterminated (bytes "/x\r\n")) ∧
      ra.method = rb.method ∧ ra.params = rb.params ∧ ra.path ≠ rb.path) := by
  refine ⟨rfl, rfl, ⟨_, _, _, _, _, _, _, rfl, rfl, rfl, rfl, rfl, rfl, rfl, rfl, rfl, rfl,
    rfl, rfl, ?_⟩⟩
  decide

/-- C10 (the code at the failing input): on "PUT /x HTTP/1.1\r\nHost: a\r\n" no branch
takes the token PUT and nothing reports it: the stores go on as for GET and POST,
the path "/x" is stored and `reqData->method` is never assigned.  The call of
`log_request` before `return 1` then reads the unassigned `method`, so the whole
function ends in a read of memory never written and reports nothing. -/
theorem unknown_method_example (mem : Nat → Nat) :
    (∃ c req,
      parse_req_start_line 32 5 mem (client_holding 32 (bytes "PUT /x HTTP/1.1\r\nHost: a\r\n"))
        = .ok (1, c) ∧
      c.reqData = some req ∧ req.method = none ∧
      req.path = some (copy_unterminated (bytes "/x")) ∧
      log_request 5 req = .error .uninitRead) ∧
    parse_req_start_line_logged 32 5 mem
        (client_holding 32 (bytes "PUT /x HTTP/1.1\r\nHost: a\r\n"))
      = .error .uninitRead := by
  exact ⟨⟨_, _, rfl, rfl, rfl, rfl, rfl⟩, rfl⟩

end Request
